import Mathlib

/-!
# Liveness check of the gateway (`gateway/health_check.go`)

A shallow embedding of the health-check subsystem: the snapshot store
(`setCurrentHealthCheckInfo`, `getHealthCheckInfo`), the reporting endpoint
(`liveCheckHandler`), one aggregation pass (`gatherHealthChecks`, as an
interleaving semantics of its goroutines) and the scheduler started by
`initHealthCheck`.

Conventions of the embedding:
* a Go `map[string]HealthCheckItem` is an association list; `len` is its length,
  `m[k] = v` is `mapSet`, a `range` loop is a fold over the entries;
* `HealthCheckStatus` is a Go string type, so a status is a `String`;
* a Go panic is the `Except.error` branch of a result.
-/

namespace HealthCheck

/-! ## Data model (lines 16-64) -/

/-- Go `type HealthCheckStatus string`. -/
abbrev HealthCheckStatus := String

/-- Go `const Pass HealthCheckStatus = "pass"`. -/
def Pass : HealthCheckStatus := "pass"
/-- Go `const Fail = "fail"`. -/
def Fail : HealthCheckStatus := "fail"
/-- Go `const Warn = "warn"`. -/
def Warn : HealthCheckStatus := "warn"

/-- Go `const Component HealthCheckComponentType = "component"`. -/
def Component : String := "component"
/-- Go `const Datastore = "datastore"`. -/
def Datastore : String := "datastore"
/-- Go `const System = "system"`. -/
def System : String := "system"

/-- Go `type HealthCheckItem struct`; the zero value of a string field is `""`. -/
structure HealthCheckItem where
  Status : HealthCheckStatus := ""
  Output : String := ""
  ComponentType : String := ""
  ComponentID : String := ""
  Time : String := ""
  deriving DecidableEq, Repr

/-- Go `map[string]HealthCheckItem`. -/
abbrev Snapshot := List (String × HealthCheckItem)

/-- Go `m[k]` with the comma-ok form: the entry stored under `k`, if any. -/
def mapGet (m : Snapshot) (k : String) : Option HealthCheckItem :=
  match m with
  | [] => none
  | (k', v) :: rest => if k' = k then some v else mapGet rest k

/-- Go `m[k] = v`: overwrite the entry of `k` when there is one, add it otherwise. -/
def mapSet (m : Snapshot) (k : String) (v : HealthCheckItem) : Snapshot :=
  match m with
  | [] => [(k, v)]
  | (k', v') :: rest => if k' = k then (k, v) :: rest else (k', v') :: mapSet rest k v

/-- Go `type HealthCheckResponse struct`. -/
structure HealthCheckResponse where
  Status : HealthCheckStatus := ""
  Version : String := ""
  Output : String := ""
  Description : String := ""
  Details : Snapshot := []
  deriving DecidableEq, Repr

/-! ## Snapshot store (lines 32-48) -/

/-- The package variable `healthCheckInfo atomic.Value`: `none` is the zero
`atomic.Value`, in which nothing was ever stored (its `Load` returns nil). -/
structure Store where
  healthCheckInfo : Option Snapshot := none
  deriving DecidableEq, Repr

/-- The store of a process in which `setCurrentHealthCheckInfo` never ran. -/
def Store.initial : Store := {}

/-- `setCurrentHealthCheckInfo(h)`: `healthCheckInfo.Store(h)` under the lock. -/
def setCurrentHealthCheckInfo (h : Snapshot) (_st : Store) : Store :=
  { healthCheckInfo := some h }

/-- `getHealthCheckInfo()`: `healthCheckInfo.Load().(map[string]HealthCheckItem)`.
The type assertion has no comma-ok form, so on the nil that `Load` returns
before any `Store` it panics. -/
def getHealthCheckInfo (st : Store) : Except String Snapshot :=
  match st.healthCheckInfo with
  | some h => .ok h
  | none => .error "interface conversion: interface is nil, not map[string]gateway.HealthCheckItem"

/-! ## Reporting endpoint (lines 182-222) -/

/-- The part of `*http.Request` the handler looks at. -/
structure Request where
  Method : String
  deriving DecidableEq, Repr

/-- Go `http.MethodGet`. -/
def MethodGet : String := "GET"
/-- Go `http.StatusOK`. -/
def StatusOK : Nat := 200
/-- Go `http.StatusMethodNotAllowed`. -/
def StatusMethodNotAllowed : Nat := 405

/-- Go `http.StatusText`, on the codes this file uses. -/
def StatusText (code : Nat) : String :=
  if code = 200 then "OK"
  else if code = 405 then "Method Not Allowed"
  else ""

/-- What is encoded into the response body. -/
inductive Body where
  | error (msg : String)
  | report (res : HealthCheckResponse)
  deriving DecidableEq, Repr

/-- What the handler wrote to the `http.ResponseWriter`. -/
structure Response where
  code : Nat
  body : Body
  deriving DecidableEq, Repr

/-- Modelled from the spec: `apiError` is declared outside the given sources
(section 6: any other method gives status 405 and a JSON body carrying the error
text "Method Not Allowed"); it wraps the message into the error body. -/
def apiError (msg : String) : Body := Body.error msg

/-- Modelled from the spec: `doJSONWrite` is declared outside the given
sources; it writes the status code and the JSON encoding of the object. -/
def doJSONWrite (code : Nat) (obj : Body) : Response := { code := code, body := obj }

/-- The loop of lines 197-203: `for _, v := range checks { if v.Status == Fail { failCount++ } }`. -/
def failCount (checks : Snapshot) : Nat :=
  checks.foldl (fun n kv => if kv.2.Status = Fail then n + 1 else n) 0

/-- The `switch failCount` of lines 205-216; the cases are tried in order, so
`case 0` wins over `case len(checks)` on the empty map. -/
def aggregateStatus (checks : Snapshot) : HealthCheckStatus :=
  if failCount checks = 0 then Pass
  else if failCount checks = checks.length then Fail
  else Warn

/-- `liveCheckHandler(w, r)`. `VERSION` is a constant declared outside the given
sources. The result is what was written to `w` (or the panic) and the store
after the call. -/
def liveCheckHandler (VERSION : String) (r : Request) (st : Store) :
    Except String Response × Store :=
  if r.Method ≠ MethodGet then
    (.ok (doJSONWrite StatusMethodNotAllowed (apiError (StatusText StatusMethodNotAllowed))), st)
  else
    match getHealthCheckInfo st with
    | .error e => (.error e, st)
    | .ok checks =>
      let res : HealthCheckResponse :=
        { Status := Pass, Version := VERSION, Description := "Tyk GW", Details := checks }
      let res := { res with Status := aggregateStatus checks }
      (.ok { code := StatusOK, body := Body.report res }, st)

/-- The status field of the report in a response, when the response is a report. -/
def reportedStatus (out : Except String Response) : Option HealthCheckStatus :=
  match out with
  | .ok { code := _, body := Body.report res } => some res.Status
  | _ => none

/-- The details of the report in a response, when the response is a report. -/
def reportedDetails (out : Except String Response) : Option Snapshot :=
  match out with
  | .ok { code := _, body := Body.report res } => some res.Details
  | _ => none

/-- The transport status of a response, when one was written. -/
def transportStatus (out : Except String Response) : Option Nat :=
  match out with
  | .ok resp => some resp.code
  | .error _ => none

/-- The number of entries of a snapshot with status `fail`. -/
def numFail (checks : Snapshot) : Nat :=
  (checks.filter (fun kv => decide (kv.2.Status = Fail))).length

/-- Switches a status between `pass` and `warn`; any other status is left as it is. -/
def swapItem (v : HealthCheckItem) : HealthCheckItem :=
  if v.Status = Pass then { v with Status := Warn }
  else if v.Status = Warn then { v with Status := Pass }
  else v

/-- Switches the status of the entries whose key is selected by `sel` between
`pass` and `warn`; the other entries, and every entry with another status, are
left as they are. -/
def swapPassWarn (sel : String → Bool) (checks : Snapshot) : Snapshot :=
  checks.map fun kv => if sel kv.1 then (kv.1, swapItem kv.2) else kv

/-! ## One aggregation pass (lines 95-180)

`gatherHealthChecks` runs up to four threads: the calling one and one goroutine
per probe. A state records where each of them stands; `step` runs the next
statement of the thread the scheduler picked, and an interleaving is the list
of the threads picked. A thread that cannot move (a goroutine not started or
finished, the caller blocked in `wg.Wait()`) leaves the state as it is. Only
statements that touch shared state (the wait group, the map, the clock, a
dependency) are steps of their own; a write to a map is taken as one step. -/

/-- What one pass reads from outside: the configuration (`config.Global()`),
the result of each dependency call and the clock. -/
structure Env where
  /-- `LivenessCheck.CheckDuration`: a `time.Duration` (an int64), whose value line 76
  multiplies by `time.Second`, so that it counts seconds. -/
  CheckDuration : Int
  UseDBAppConfigs : Bool
  PolicySource : String
  /-- `redisStore.SetRawKey(key, key, 10)`: `none` is nil, `some m` an error with `Error() = m`. -/
  setRawKey : Option String
  /-- `DashService.Ping()`: `none` is nil, `some m` an error with `Error() = m`. -/
  ping : Option String
  /-- `rpcStore.Connect()`. -/
  connect : Bool
  /-- `time.Now().Format(time.RFC3339)` at each instant of the pass. -/
  now : Nat → String

/-- The threads of a pass. -/
inductive Tid where
  | main | redis | dashboard | rpc
  deriving DecidableEq, Repr

/-- The next statement of the calling thread. -/
inductive MainPC where
  /-- lines 97-105: `allInfos := make(...)` up to the `go` of the store probe -/
  | start
  /-- line 127-129: `if config.Global().UseDBAppConfigs { wg.Add(1)` -/
  | dashTest
  /-- line 131: `go func() {...}()` of the control-plane probe -/
  | dashGo
  /-- line 151-153: `if config.Global().Policies.PolicySource == "rpc" { wg.Add(1)` -/
  | rpcTest
  /-- line 155: `go func() {...}()` of the RPC probe -/
  | rpcGo
  /-- line 177: `wg.Wait()` -/
  | wait
  /-- line 179: `setCurrentHealthCheckInfo(allInfos)` -/
  | publish
  /-- the call has returned -/
  | returned
  deriving DecidableEq, Repr

/-- The next statement of a probe goroutine. -/
inductive ProbePC where
  /-- the goroutine has not been started -/
  | idle
  /-- line 107, store probe only: `wg.Add(1)` inside the goroutine -/
  | add
  /-- `var checkItem = HealthCheckItem{...Time: time.Now()...}` -/
  | init
  /-- the dependency call and the `if` on its result -/
  | call
  /-- `allInfos[name] = checkItem` (after `checkItem.ComponentType = System`) -/
  | write
  /-- the deferred `wg.Done()` -/
  | done
  /-- the goroutine has ended -/
  | finished
  deriving DecidableEq, Repr

/-- The state of a pass. `store` is `healthCheckInfo` as the pass found it;
once the caller has run line 179 the store holds `allInfos` itself (a Go map is
a reference), see `PassState.healthCheckInfo`. -/
structure PassState where
  main : MainPC := .start
  redis : ProbePC := .idle
  dashboard : ProbePC := .idle
  rpc : ProbePC := .idle
  /-- the counter of `wg` -/
  wg : Int := 0
  allInfos : Snapshot := []
  /-- `checkItem` of the store probe -/
  redisItem : HealthCheckItem := {}
  /-- `checkItem` of the control-plane probe -/
  dashItem : HealthCheckItem := {}
  /-- `checkItem` of the RPC probe -/
  rpcItem : HealthCheckItem := {}
  store : Store := {}
  /-- the instant, one per step -/
  clock : Nat := 0
  deriving DecidableEq, Repr

/-- The literal `HealthCheckItem{Status: Pass, ComponentType: Datastore, Time: ...}`
with which each of the three goroutines starts (lines 111, 134, 158). -/
def newCheckItem (time : String) : HealthCheckItem :=
  { Status := Pass, ComponentType := Datastore, Time := time }

/-- Lines 117-122 and 140-144: `if err != nil { checkItem.Output = err.Error(); checkItem.Status = Fail }`. -/
def recordError (item : HealthCheckItem) (err : Option String) : HealthCheckItem :=
  match err with
  | some msg => { item with Output := msg, Status := Fail }
  | none => item

/-- Lines 166-169: `if !rpcStore.Connect() { checkItem.Output = "Could not connect to RPC"; checkItem.Status = Fail }`. -/
def recordConnect (item : HealthCheckItem) (connected : Bool) : HealthCheckItem :=
  if !connected then { item with Output := "Could not connect to RPC", Status := Fail }
  else item

/-- Lines 146 and 171: `checkItem.ComponentType = System`. -/
def retagSystem (item : HealthCheckItem) : HealthCheckItem :=
  { item with ComponentType := System }

/-- The next statement of the calling thread. -/
def stepMain (e : Env) (s : PassState) : PassState :=
  match s.main with
  | .start => { s with main := .dashTest, allInfos := [], redis := .add }
  | .dashTest =>
    if e.UseDBAppConfigs then { s with main := .dashGo, wg := s.wg + 1 }
    else { s with main := .rpcTest }
  | .dashGo => { s with main := .rpcTest, dashboard := .init }
  | .rpcTest =>
    if e.PolicySource = "rpc" then { s with main := .rpcGo, wg := s.wg + 1 }
    else { s with main := .wait }
  | .rpcGo => { s with main := .wait, rpc := .init }
  | .wait => if s.wg = 0 then { s with main := .publish } else s
  | .publish => { s with main := .returned }
  | .returned => s

/-- The next statement of the store probe (lines 105-125). -/
def stepRedis (e : Env) (s : PassState) : PassState :=
  match s.redis with
  | .idle => s
  | .add => { s with redis := .init, wg := s.wg + 1 }
  | .init => { s with redis := .call, redisItem := newCheckItem (e.now s.clock) }
  | .call => { s with redis := .write, redisItem := recordError s.redisItem e.setRawKey }
  | .write => { s with redis := .done, allInfos := mapSet s.allInfos "redis" s.redisItem }
  | .done => { s with redis := .finished, wg := s.wg - 1 }
  | .finished => s

/-- The next statement of the control-plane probe (lines 131-148). -/
def stepDashboard (e : Env) (s : PassState) : PassState :=
  match s.dashboard with
  | .idle => s
  | .add => s
  | .init => { s with dashboard := .call, dashItem := newCheckItem (e.now s.clock) }
  | .call => { s with dashboard := .write, dashItem := recordError s.dashItem e.ping }
  | .write =>
    { s with dashboard := .done, allInfos := mapSet s.allInfos "dashboard" (retagSystem s.dashItem) }
  | .done => { s with dashboard := .finished, wg := s.wg - 1 }
  | .finished => s

/-- The next statement of the RPC probe (lines 155-174). -/
def stepRpc (e : Env) (s : PassState) : PassState :=
  match s.rpc with
  | .idle => s
  | .add => s
  | .init => { s with rpc := .call, rpcItem := newCheckItem (e.now s.clock) }
  | .call => { s with rpc := .write, rpcItem := recordConnect s.rpcItem e.connect }
  | .write => { s with rpc := .done, allInfos := mapSet s.allInfos "rpc" (retagSystem s.rpcItem) }
  | .done => { s with rpc := .finished, wg := s.wg - 1 }
  | .finished => s

/-- One step of the pass: the thread `t` runs its next statement, at the
instant `s.clock`, and the clock moves on. -/
def step (e : Env) (s : PassState) (t : Tid) : PassState :=
  let s' := match t with
    | .main => stepMain e s
    | .redis => stepRedis e s
    | .dashboard => stepDashboard e s
    | .rpc => stepRpc e s
  { s' with clock := s.clock + 1 }

/-- The state in which `gatherHealthChecks()` is entered, the store holding `st`. -/
def PassState.enter (st : Store) : PassState := { store := st }

/-- `gatherHealthChecks()` under the interleaving `sched`, entered on the store `st`. -/
def gatherHealthChecks (e : Env) (sched : List Tid) (st : Store) : PassState :=
  sched.foldl (step e) (PassState.enter st)

/-- The pass has run line 179 (`setCurrentHealthCheckInfo(allInfos)`). -/
def PassState.published (s : PassState) : Bool := decide (s.main = .returned)

/-- The store as a reader finds it: the map of this pass once it is published
(the map itself, so a later write of a goroutine shows in it), what was
there before otherwise. -/
def PassState.healthCheckInfo (s : PassState) : Store :=
  if s.published then setCurrentHealthCheckInfo s.allInfos s.store else s.store

/-- The snapshot that line 179 hands to the store: `allInfos` as it is when the
calling thread runs `setCurrentHealthCheckInfo`, i.e. after the first step of
`sched` that takes the caller from `publish` to `returned`. -/
def publishedSnapshot (e : Env) (sched : List Tid) (st : Store) : Option Snapshot :=
  go (PassState.enter st) sched
where
  /-- Runs the interleaving until the caller has published. -/
  go (s : PassState) : List Tid → Option Snapshot
    | [] => none
    | t :: rest =>
      if s.main = .publish ∧ t = .main then some s.allInfos
      else go (step e s t) rest

/-! ## Scheduler (lines 66-93) -/

/-- Go `int64` arithmetic: the value of an integer result after wrap-around. -/
def wrapInt64 (x : Int) : Int := (x + 2 ^ 63) % 2 ^ 64 - 2 ^ 63

/-- Go `time.Second`, in nanoseconds. -/
def Second : Int := 1000000000

/-- Where the goroutine of `initHealthCheck` stands. -/
inductive Loop where
  /-- in the `select` of line 79 -/
  | running
  /-- inside a `gatherHealthChecks()` call that has not returned -/
  | inPass
  /-- returned at line 86 -/
  | stopped
  /-- `time.NewTicker` panicked on a non-positive period -/
  | panicked
  deriving DecidableEq, Repr

/-- The state of the scheduler and of the store it publishes to. -/
structure Scheduler where
  store : Store
  loop : Loop
  /-- the period given to `time.NewTicker`, in nanoseconds -/
  period : Int
  /-- `ticker.Stop()` has run -/
  tickerStopped : Bool := false
  /-- the number of `gatherHealthChecks()` calls made so far -/
  passes : Nat := 0
  deriving DecidableEq, Repr

/-- Lines 70-76: `n := CheckDuration; if n == 0 { n = 10 }; time.Second * n`. -/
def tickPeriod (e : Env) : Int :=
  let n := e.CheckDuration
  let n := if n = 0 then 10 else n
  wrapInt64 (Second * n)

/-- `initHealthCheck(ctx)` up to the first `select`: the empty map is published
(line 67) and the goroutine creates its ticker (line 76). -/
def initHealthCheck (e : Env) (st : Store) : Scheduler :=
  let st := setCurrentHealthCheckInfo [] st
  if tickPeriod e ≤ 0 then { store := st, loop := .panicked, period := tickPeriod e }
  else { store := st, loop := .running, period := tickPeriod e }

/-- The case the `select` of line 79 takes. A tick carries what the pass it
starts will meet: its environment and its interleaving. -/
inductive Event where
  /-- `case <-ctx.Done()` -/
  | cancel
  /-- `case <-ticker.C` -/
  | tick (e : Env) (sched : List Tid)

/-- One round of the `for { select {...} }` loop, lines 78-91. -/
def Scheduler.select (s : Scheduler) (ev : Event) : Scheduler :=
  match s.loop with
  | .running =>
    match ev with
    | .cancel => { s with loop := .stopped, tickerStopped := true }
    | .tick e sched =>
      let p := gatherHealthChecks e sched s.store
      { s with passes := s.passes + 1, store := p.healthCheckInfo,
               loop := if p.published then .running else .inPass }
  | _ => s

/-- The scheduler after `initHealthCheck` and the given rounds of its loop. -/
def runScheduler (e : Env) (st : Store) (evs : List Event) : Scheduler :=
  evs.foldl Scheduler.select (initHealthCheck e st)

/-- The number of ticks among the events. -/
def countTicks (evs : List Event) : Nat :=
  (evs.filter fun ev => match ev with | .tick _ _ => true | .cancel => false).length

/-! ## Invariants of a pass -/

/-- The position of the calling thread, counted in statements. -/
def MainPC.rank : MainPC → Nat
  | .start => 0
  | .dashTest => 1
  | .dashGo => 2
  | .rpcTest => 3
  | .rpcGo => 4
  | .wait => 5
  | .publish => 6
  | .returned => 7

/-- The goroutine has written its entry into the map. -/
def ProbePC.wrote (pc : ProbePC) : Prop := pc = .done ∨ pc = .finished

/-- The store probe is between its own `wg.Add(1)` and its `wg.Done()`. -/
def ProbePC.counted (pc : ProbePC) : Prop :=
  pc = .init ∨ pc = .call ∨ pc = .write ∨ pc = .done

instance (pc : ProbePC) : Decidable pc.wrote := by unfold ProbePC.wrote; infer_instance
instance (pc : ProbePC) : Decidable pc.counted := by unfold ProbePC.counted; infer_instance

/-- The control invariant of a pass: what the wait group counts, which
goroutines can have started, and which keys the map holds. -/
structure Inv (e : Env) (s : PassState) : Prop where
  wg_eq : s.wg =
    (if s.redis.counted then 1 else 0)
    + (if e.UseDBAppConfigs = true ∧ 2 ≤ s.main.rank ∧ s.dashboard ≠ .finished then 1 else 0)
    + (if e.PolicySource = "rpc" ∧ 4 ≤ s.main.rank ∧ s.rpc ≠ .finished then 1 else 0)
  redis_started : s.redis ≠ .idle → 1 ≤ s.main.rank
  dash_started : s.dashboard ≠ .idle → e.UseDBAppConfigs = true ∧ 3 ≤ s.main.rank
  rpc_started : s.rpc ≠ .idle → e.PolicySource = "rpc" ∧ 5 ≤ s.main.rank
  dash_no_add : s.dashboard ≠ .add
  rpc_no_add : s.rpc ≠ .add
  main_dashGo : s.main = .dashGo → e.UseDBAppConfigs = true
  main_rpcGo : s.main = .rpcGo → e.PolicySource = "rpc"
  waited : 6 ≤ s.main.rank →
    (e.UseDBAppConfigs = true → s.dashboard = .finished) ∧
    (e.PolicySource = "rpc" → s.rpc = .finished)
  has_redis : (mapGet s.allInfos "redis").isSome ↔ s.redis.wrote
  has_dash : (mapGet s.allInfos "dashboard").isSome ↔ s.dashboard.wrote
  has_rpc : (mapGet s.allInfos "rpc").isSome ↔ s.rpc.wrote
  keys : ∀ k, (mapGet s.allInfos k).isSome → k = "redis" ∨ k = "dashboard" ∨ k = "rpc"

/-- What the goroutine-local `checkItem` values and the entries of the map are
made of: the literal of the goroutine, then the outcome of its dependency. -/
structure ItemInv (e : Env) (s : PassState) : Prop where
  redis_call : s.redis = .call → ∃ t, s.redisItem = newCheckItem (e.now t)
  redis_write : s.redis = .write →
    ∃ t, s.redisItem = recordError (newCheckItem (e.now t)) e.setRawKey
  redis_entry : ∀ v, mapGet s.allInfos "redis" = some v →
    ∃ t, v = recordError (newCheckItem (e.now t)) e.setRawKey
  dash_call : s.dashboard = .call → ∃ t, s.dashItem = newCheckItem (e.now t)
  dash_write : s.dashboard = .write →
    ∃ t, s.dashItem = recordError (newCheckItem (e.now t)) e.ping
  dash_entry : ∀ v, mapGet s.allInfos "dashboard" = some v →
    ∃ t, v = retagSystem (recordError (newCheckItem (e.now t)) e.ping)
  rpc_call : s.rpc = .call → ∃ t, s.rpcItem = newCheckItem (e.now t)
  rpc_write : s.rpc = .write →
    ∃ t, s.rpcItem = recordConnect (newCheckItem (e.now t)) e.connect
  rpc_entry : ∀ v, mapGet s.allInfos "rpc" = some v →
    ∃ t, v = retagSystem (recordConnect (newCheckItem (e.now t)) e.connect)

/-- Two passes under the same interleaving, configuration and clock, whose
dependencies may answer differently: the threads stand at the same statements,
and what a probe holds and wrote is the same whenever its own dependency
answered the same. -/
structure Sim (e e' : Env) (s s' : PassState) : Prop where
  main : s.main = s'.main
  redis : s.redis = s'.redis
  dashboard : s.dashboard = s'.dashboard
  rpc : s.rpc = s'.rpc
  wg : s.wg = s'.wg
  clock : s.clock = s'.clock
  redis_same : e.setRawKey = e'.setRawKey →
    s.redisItem = s'.redisItem ∧ mapGet s.allInfos "redis" = mapGet s'.allInfos "redis"
  dash_same : e.ping = e'.ping →
    s.dashItem = s'.dashItem ∧ mapGet s.allInfos "dashboard" = mapGet s'.allInfos "dashboard"
  rpc_same : e.connect = e'.connect →
    s.rpcItem = s'.rpcItem ∧ mapGet s.allInfos "rpc" = mapGet s'.allInfos "rpc"

/-- The interleaving in which every goroutine runs to its end as soon as it is
started, and the caller goes on after it. -/
def sequentialSchedule (e : Env) : List Tid :=
  [.main, .redis, .redis, .redis, .redis, .redis, .main]
  ++ (if e.UseDBAppConfigs then [.main, .dashboard, .dashboard, .dashboard, .dashboard] else [])
  ++ [.main]
  ++ (if e.PolicySource = "rpc" then [.main, .rpc, .rpc, .rpc, .rpc] else [])
  ++ [.main, .main]

/-- The interleaving in which the caller runs on to line 179 before any
goroutine has run a statement. -/
def callerFirstSchedule : List Tid := [.main, .main, .main, .main, .main]

/-- A configuration with no control plane and no RPC policy source, all of
whose dependencies answer without error. -/
def quietEnv : Env :=
  { CheckDuration := 0, UseDBAppConfigs := false, PolicySource := "",
    setRawKey := none, ping := none, connect := true, now := fun _ => "2020-01-01T00:00:00Z" }

/-- A configuration with the control plane and the RPC policy source enabled,
in which the store and the RPC endpoint cannot be reached. -/
def failingEnv : Env :=
  { CheckDuration := 5, UseDBAppConfigs := true, PolicySource := "rpc",
    setRawKey := some "connection refused", ping := none, connect := false,
    now := fun _ => "2020-01-01T00:00:00Z" }

/-! ## The scheduler: period and cancellation -/

/-- The largest `CheckDuration` whose product with `time.Second` fits an `int64`. -/
def maxCheckDuration : Int := 9223372036

/-- The round of the loop takes `case <-ctx.Done()`. -/
def Event.isCancel : Event → Bool
  | .cancel => true
  | .tick _ _ => false

/-- The environment `quietEnv` with another `CheckDuration`. -/
def envWithDuration (n : Int) : Env := { quietEnv with CheckDuration := n }

/-! ## When a probe reads the clock -/

/-- The instants at which a probe goroutine built its `checkItem` (and read
`time.Now()`) and at which it made its dependency call. -/
structure Instants where
  init : Option Nat := none
  call : Option Nat := none
  deriving DecidableEq, Repr

/-- The instants of the three probes of a pass. -/
structure Trace where
  redis : Instants := {}
  dashboard : Instants := {}
  rpc : Instants := {}
  deriving DecidableEq, Repr

/-- Notes the instant `clock` when the statement about to run is the literal
with `time.Now()` or the dependency call. -/
def Instants.record (pc : ProbePC) (clock : Nat) (i : Instants) : Instants :=
  match pc with
  | .init => { i with init := some clock }
  | .call => { i with call := some clock }
  | _ => i

/-- The trace after the thread `t` has run its next statement in the state `s`. -/
def stepTrace (s : PassState) (t : Tid) (tr : Trace) : Trace :=
  match t with
  | .main => tr
  | .redis => { tr with redis := tr.redis.record s.redis s.clock }
  | .dashboard => { tr with dashboard := tr.dashboard.record s.dashboard s.clock }
  | .rpc => { tr with rpc := tr.rpc.record s.rpc s.clock }

/-- The trace of `gatherHealthChecks()` under the interleaving `sched`. -/
def instants (e : Env) (sched : List Tid) (st : Store) : Trace :=
  go (PassState.enter st) {} sched
where
  /-- Runs the interleaving and keeps the trace. -/
  go (s : PassState) (tr : Trace) : List Tid → Trace
    | [] => tr
    | t :: rest => go (step e s t) (stepTrace s t tr) rest

/-- The `Time` of one probe, at the statement `pc` with the goroutine-local
`item`, the `entry` of the probe in the map and the instants `i` noted so far:
`Time` was read at the instant `i.init`, which lies before the instant of the
dependency call. -/
def ProbeTime (e : Env) (pc : ProbePC) (item : HealthCheckItem)
    (entry : Option HealthCheckItem) (clock : Nat) (i : Instants) : Prop :=
  (pc = .call → ∃ ti, i.init = some ti ∧ ti < clock ∧ item.Time = e.now ti) ∧
  (pc = .write →
    ∃ ti tc, i.init = some ti ∧ i.call = some tc ∧ ti < tc ∧ item.Time = e.now ti) ∧
  (∀ v, entry = some v →
    ∃ ti tc, i.init = some ti ∧ i.call = some tc ∧ ti < tc ∧ v.Time = e.now ti)

/-- The `Time` of the three probes of a pass. -/
structure TimeInv (e : Env) (s : PassState) (tr : Trace) : Prop where
  redis : ProbeTime e s.redis s.redisItem (mapGet s.allInfos "redis") s.clock tr.redis
  dashboard :
    ProbeTime e s.dashboard s.dashItem (mapGet s.allInfos "dashboard") s.clock tr.dashboard
  rpc : ProbeTime e s.rpc s.rpcItem (mapGet s.allInfos "rpc") s.clock tr.rpc

/-- A clock whose reading changes from one instant to the next. -/
def tickingClock (t : Nat) : String :=
  if t = 0 then "2020-01-01T00:00:00Z"
  else if t = 1 then "2020-01-01T00:00:01Z"
  else if t = 2 then "2020-01-01T00:00:02Z"
  else if t = 3 then "2020-01-01T00:00:03Z"
  else "2020-01-01T00:00:04Z"

/-- The environment `quietEnv` under the ticking clock. -/
def tickingEnv : Env := { quietEnv with now := tickingClock }

/-! ## The JSON body of the report (struct tags of lines 50-64)

`json.NewEncoder(w).Encode(res)` writes one member per field, under the name of
its tag; a field tagged `omitempty` is left out when it is empty (a string of
length 0, a map of length 0). The members of `details` are listed here in the
order of the association list. -/

/-- The JSON object of one `HealthCheckItem`: its members, all of them strings. -/
abbrev JsonItem := List (String × String)

/-- A member of the JSON object of a `HealthCheckResponse`. -/
inductive JsonValue where
  | str (s : String)
  | details (entries : List (String × JsonItem))
  deriving DecidableEq, Repr

/-- A member tagged `omitempty` whose value is a string. -/
def omitEmpty (name value : String) : List (String × String) :=
  if value.length = 0 then [] else [(name, value)]

/-- The encoding of a `HealthCheckItem` (tags of lines 59-63). -/
def encodeItem (v : HealthCheckItem) : JsonItem :=
  [("status", v.Status)]
  ++ omitEmpty "output" v.Output
  ++ omitEmpty "componentType" v.ComponentType
  ++ omitEmpty "componentId" v.ComponentID
  ++ [("time", v.Time)]

/-- The encoding of a `HealthCheckResponse` (tags of lines 51-55). -/
def encodeResponse (res : HealthCheckResponse) : List (String × JsonValue) :=
  [("status", JsonValue.str res.Status)]
  ++ (omitEmpty "version" res.Version).map (fun kv => (kv.1, JsonValue.str kv.2))
  ++ (omitEmpty "output" res.Output).map (fun kv => (kv.1, JsonValue.str kv.2))
  ++ (omitEmpty "description" res.Description).map (fun kv => (kv.1, JsonValue.str kv.2))
  ++ (if res.Details.length = 0 then []
      else [("details", JsonValue.details (res.Details.map fun kv => (kv.1, encodeItem kv.2)))])

/-- The JSON object written as the body of a report, when the response is one. -/
def jsonBody (out : Except String Response) : Option (List (String × JsonValue)) :=
  match out with
  | .ok { code := _, body := Body.report res } => some (encodeResponse res)
  | _ => none

/-- The value of the member `name` of a JSON object, if the object has one. -/
def member (obj : List (String × JsonValue)) (name : String) : Option JsonValue :=
  match obj with
  | [] => none
  | (k, v) :: rest => if k = name then some v else member rest name

/-! ## What the store can hold -/

/-- An entry as a probe writes it: under one of the three fixed names, with
status pass or fail. -/
def GoodEntry (kv : String × HealthCheckItem) : Prop :=
  (kv.1 = "redis" ∨ kv.1 = "dashboard" ∨ kv.1 = "rpc") ∧
  (kv.2.Status = Pass ∨ kv.2.Status = Fail)

/-- A map whose keys are distinct and whose entries are all as a probe writes them. -/
def GoodSnapshot (m : Snapshot) : Prop :=
  (m.map Prod.fst).Nodup ∧ ∀ kv ∈ m, GoodEntry kv

/-- Where a stored snapshot comes from: the empty map of `initHealthCheck`, or
the map of a pass started by one of the ticks. -/
def FromPass (evs : List Event) (m : Snapshot) : Prop :=
  m = [] ∨ ∃ e sched st, Event.tick e sched ∈ evs ∧ m = (gatherHealthChecks e sched st).allInfos

end HealthCheck

/-! # The embedded schema assets (`apidef/oas/schema/schema.gen.go`)

A Go result pair `([]byte, error)` is a pair of options: `none` is nil. What
`compress/gzip` makes of an embedded blob is taken as given. -/

namespace Schema

/-- What reading one embedded blob through `gzip` does: the error of
`gzip.NewReader`, the bytes copied into the buffer, the error of `io.Copy` and
the error of `gz.Close()`. -/
structure GzipRun where
  newReader : Option String := none
  copied : List Nat := []
  copy : Option String := none
  close : Option String := none
  deriving DecidableEq, Repr

/-- What `gzip` does on each of the two blobs `__303Json` and `_xTykApiGatewayJson`. -/
structure Blobs where
  json303 : GzipRun
  xTykApiGateway : GzipRun
  deriving DecidableEq, Repr

/-- Go `%q` on a name without characters to escape: the name in double quotes. -/
def quoted (name : String) : String :=
  String.singleton (Char.ofNat 34) ++ name ++ String.singleton (Char.ofNat 34)

/-- `bindataRead(data, name)`, lines 20-38. When the copy succeeds and the
close fails, `return nil, err` returns the nil `err` of the copy. -/
def bindataRead (run : GzipRun) (name : String) : Option (List Nat) × Option String :=
  match run.newReader with
  | some err => (none, some ("Read " ++ quoted name ++ ": " ++ err))
  | none =>
    match run.copy with
    | some err => (none, some ("Read " ++ quoted name ++ ": " ++ err))
    | none =>
      match run.close with
      | some _ => (none, none)
      | none => (some run.copied, none)

/-- Go `type bindataFileInfo struct`. -/
structure bindataFileInfo where
  name : String
  size : Int := 0
  mode : Nat := 0
  modTime : Int := 0
  deriving DecidableEq, Repr

/-- Go `type asset struct`. -/
structure asset where
  bytes : Option (List Nat)
  info : bindataFileInfo
  deriving DecidableEq, Repr

/-- `_303JsonBytes()`. -/
def _303JsonBytes (b : Blobs) : Option (List Nat) × Option String :=
  bindataRead b.json303 "3.0.3.json"

/-- `_303Json()`. -/
def _303Json (b : Blobs) : Option asset × Option String :=
  match _303JsonBytes b with
  | (_, some err) => (none, some err)
  | (bytes, none) => (some { bytes := bytes, info := { name := "3.0.3.json" } }, none)

/-- `xTykApiGatewayJsonBytes()`. -/
def xTykApiGatewayJsonBytes (b : Blobs) : Option (List Nat) × Option String :=
  bindataRead b.xTykApiGateway "x-tyk-api-gateway.json"

/-- `xTykApiGatewayJson()`. -/
def xTykApiGatewayJson (b : Blobs) : Option asset × Option String :=
  match xTykApiGatewayJsonBytes b with
  | (_, some err) => (none, some err)
  | (bytes, none) =>
    (some { bytes := bytes, info := { name := "x-tyk-api-gateway.json" } }, none)

/-- The table `_bindata`, lines 163-166: each asset generator under its name. -/
def _bindata : List (String × (Blobs → Option asset × Option String)) :=
  [("3.0.3.json", _303Json), ("x-tyk-api-gateway.json", xTykApiGatewayJson)]

/-- Go `_bindata[name]` with the comma-ok form. -/
def tableGet (table : List (String × (Blobs → Option asset × Option String)))
    (name : String) : Option (Blobs → Option asset × Option String) :=
  match table with
  | [] => none
  | (k, f) :: rest => if k = name then some f else tableGet rest name

/-- Go `strings.Replace(name, "\\", "/", -1)`: every backslash becomes a slash. -/
def cannonicalName (name : String) : String :=
  String.mk (name.data.map fun c => if c = Char.ofNat 92 then '/' else c)

/-- `Asset(name)`, lines 115-125. No generator returns a nil asset together with
a nil error; for that case, in which Go would dereference nil, no bytes are given. -/
def Asset (b : Blobs) (name : String) : Option (List Nat) × Option String :=
  match tableGet _bindata (cannonicalName name) with
  | some f =>
    match f b with
    | (_, some err) => (none, some ("Asset " ++ name ++ " can't read by error: " ++ err))
    | (some a, none) => (a.bytes, none)
    | (none, none) => (none, none)
  | none => (none, some ("Asset " ++ name ++ " not found"))

/-- Blobs that `gzip` reads without error. -/
def goodBlobs : Blobs :=
  { json303 := { copied := [123, 125] }, xTykApiGateway := { copied := [123, 125] } }

/-- Blobs of which the first has a broken `gzip` header. -/
def brokenBlobs : Blobs :=
  { json303 := { newReader := some "gzip: invalid header" },
    xTykApiGateway := { copied := [123, 125] } }

end Schema

namespace HealthCheck

/-! ## The aggregate of the reporting endpoint -/

theorem failCount_foldl (checks : Snapshot) (n : Nat) :
    checks.foldl (fun n kv => if kv.2.Status = Fail then n + 1 else n) n
      = n + numFail checks := by
  induction checks generalizing n with
  | nil => simp [numFail]
  | cons kv rest ih =>
    simp only [List.foldl_cons, ih]
    by_cases h : kv.2.Status = Fail
    · simp [numFail, h, List.filter_cons]; omega
    · simp [numFail, h, List.filter_cons]

theorem failCount_eq_numFail (checks : Snapshot) : failCount checks = numFail checks := by
  simp [failCount, failCount_foldl]

theorem numFail_le_length (checks : Snapshot) : numFail checks ≤ checks.length := by
  simpa [numFail] using List.length_filter_le _ checks

theorem liveCheckHandler_get (VERSION : String) (r : Request) (checks : Snapshot)
    (hget : r.Method = MethodGet) :
    liveCheckHandler VERSION r { healthCheckInfo := some checks } =
      (.ok { code := StatusOK,
             body := Body.report { Status := aggregateStatus checks, Version := VERSION,
                                   Description := "Tyk GW", Details := checks } },
       { healthCheckInfo := some checks }) := by
  simp [liveCheckHandler, hget, getHealthCheckInfo]

theorem swapItem_fail_iff (v : HealthCheckItem) :
    (swapItem v).Status = Fail ↔ v.Status = Fail := by
  have hpf : Pass ≠ Fail := by decide
  have hwf : Warn ≠ Fail := by decide
  unfold swapItem
  by_cases hp : v.Status = Pass
  · simp [hp, hpf, hwf]
  · by_cases hw : v.Status = Warn
    · have hwp : Warn ≠ Pass := by decide
      simp [hw, hpf, hwf, hwp]
    · simp [hp, hw]

theorem numFail_cons (kv : String × HealthCheckItem) (rest : Snapshot) :
    numFail (kv :: rest) = (if kv.2.Status = Fail then 1 else 0) + numFail rest := by
  by_cases h : kv.2.Status = Fail
  · simp [numFail, List.filter_cons, h]; omega
  · simp [numFail, List.filter_cons, h]

theorem swapPassWarn_cons (sel : String → Bool) (kv : String × HealthCheckItem)
    (rest : Snapshot) :
    swapPassWarn sel (kv :: rest)
      = (if sel kv.1 then (kv.1, swapItem kv.2) else kv) :: swapPassWarn sel rest := rfl

theorem numFail_swapPassWarn (sel : String → Bool) (checks : Snapshot) :
    numFail (swapPassWarn sel checks) = numFail checks := by
  induction checks with
  | nil => rfl
  | cons kv rest ih =>
    rw [swapPassWarn_cons, numFail_cons, numFail_cons, ih]
    by_cases hs : sel kv.1 = true
    · simp [hs, swapItem_fail_iff]
    · simp [hs]

theorem length_swapPassWarn (sel : String → Bool) (checks : Snapshot) :
    (swapPassWarn sel checks).length = checks.length := by
  simp [swapPassWarn]

theorem aggregateStatus_swapPassWarn (sel : String → Bool) (checks : Snapshot) :
    aggregateStatus (swapPassWarn sel checks) = aggregateStatus checks := by
  simp [aggregateStatus, failCount_eq_numFail, numFail_swapPassWarn, length_swapPassWarn]

/-- C1: for a GET on a stored snapshot with `N` entries of which `F` have status
fail, the status in the report is pass when `F = 0` (the empty snapshot
included), fail when `F = N` and `N > 0`, and warn when `0 < F < N`. -/
theorem liveCheckHandler_aggregate_rule (VERSION : String) (r : Request) (checks : Snapshot)
    (hget : r.Method = MethodGet) :
    (numFail checks = 0 →
      reportedStatus (liveCheckHandler VERSION r { healthCheckInfo := some checks }).1
        = some Pass) ∧
    (numFail checks = checks.length → 0 < checks.length →
      reportedStatus (liveCheckHandler VERSION r { healthCheckInfo := some checks }).1
        = some Fail) ∧
    (0 < numFail checks → numFail checks < checks.length →
      reportedStatus (liveCheckHandler VERSION r { healthCheckInfo := some checks }).1
        = some Warn) := by
  rw [liveCheckHandler_get VERSION r checks hget]
  simp only [reportedStatus, aggregateStatus, failCount_eq_numFail]
  refine ⟨fun h => by simp [h], fun h hpos => ?_, fun hpos hlt => ?_⟩
  · have h0 : numFail checks ≠ 0 := by omega
    rw [if_neg h0, if_pos h]
  · have h0 : numFail checks ≠ 0 := by omega
    have h1 : numFail checks ≠ checks.length := by omega
    simp [h0, h1]

/-- Witness of C1: a GET on a snapshot of two entries, one of them fail, reports warn. -/
theorem liveCheckHandler_aggregate_rule_witness :
    (Request.mk "GET").Method = MethodGet ∧
    reportedStatus (liveCheckHandler "v1" (Request.mk "GET")
      { healthCheckInfo := some [("redis", { Status := Pass }), ("dashboard", { Status := Fail })] }).1
      = some Warn :=
  ⟨by decide,
   (liveCheckHandler_aggregate_rule "v1" (Request.mk "GET")
      [("redis", { Status := Pass }), ("dashboard", { Status := Fail })] (by decide)).2.2
      (by decide) (by decide)⟩

/-- C2: entries with status warn count like pass: switching the status of any
set of entries between pass and warn, every other entry left as it is, changes
neither the aggregate nor the status that the handler reports. -/
theorem liveCheckHandler_warn_counts_as_pass (VERSION : String) (r : Request)
    (sel : String → Bool) (checks : Snapshot) :
    aggregateStatus (swapPassWarn sel checks) = aggregateStatus checks ∧
    reportedStatus (liveCheckHandler VERSION r
        { healthCheckInfo := some (swapPassWarn sel checks) }).1
      = reportedStatus (liveCheckHandler VERSION r { healthCheckInfo := some checks }).1 := by
  refine ⟨aggregateStatus_swapPassWarn sel checks, ?_⟩
  by_cases hget : r.Method = MethodGet
  · rw [liveCheckHandler_get VERSION r _ hget, liveCheckHandler_get VERSION r _ hget]
    simp [reportedStatus, aggregateStatus_swapPassWarn]
  · simp [liveCheckHandler, hget]

/-- C3: a request whose method is not GET is answered with 405 and the error
body "Method Not Allowed"; the answer does not depend on the store, the store
is left as it was, and a following GET answers as it would have before. -/
theorem liveCheckHandler_method_not_allowed (VERSION : String) (r : Request) (st : Store)
    (hm : r.Method ≠ MethodGet) :
    (liveCheckHandler VERSION r st).1
      = .ok { code := 405, body := Body.error "Method Not Allowed" } ∧
    (∀ st' : Store, (liveCheckHandler VERSION r st').1 = (liveCheckHandler VERSION r st).1) ∧
    (liveCheckHandler VERSION r st).2 = st ∧
    (∀ g : Request, g.Method = MethodGet →
      liveCheckHandler VERSION g (liveCheckHandler VERSION r st).2
        = liveCheckHandler VERSION g st) := by
  have h : ∀ st' : Store, liveCheckHandler VERSION r st'
      = (.ok { code := 405, body := Body.error "Method Not Allowed" }, st') := by
    intro st'
    simp [liveCheckHandler, hm, doJSONWrite, apiError, StatusText, StatusMethodNotAllowed]
  refine ⟨by rw [h], fun st' => by rw [h, h], by rw [h], fun g _ => by rw [h]⟩

/-- Witness of C3: a POST on a store holding one failed entry. -/
theorem liveCheckHandler_method_not_allowed_witness :
    (Request.mk "POST").Method ≠ MethodGet ∧
    (liveCheckHandler "v1" (Request.mk "POST")
        { healthCheckInfo := some [("redis", { Status := Fail })] }).1
      = .ok { code := 405, body := Body.error "Method Not Allowed" } :=
  ⟨by decide,
   (liveCheckHandler_method_not_allowed "v1" (Request.mk "POST")
      { healthCheckInfo := some [("redis", { Status := Fail })] } (by decide)).1⟩

/-- C4: a GET on any stored snapshot is answered with transport status 200,
whatever the aggregate; the aggregate is the status field of the payload, the
details are the stored snapshot, and the transport status is never a 5xx. -/
theorem liveCheckHandler_get_always_200 (VERSION : String) (r : Request) (checks : Snapshot)
    (hget : r.Method = MethodGet) :
    transportStatus (liveCheckHandler VERSION r { healthCheckInfo := some checks }).1
      = some 200 ∧
    reportedStatus (liveCheckHandler VERSION r { healthCheckInfo := some checks }).1
      = some (aggregateStatus checks) ∧
    reportedDetails (liveCheckHandler VERSION r { healthCheckInfo := some checks }).1
      = some checks ∧
    (∀ c, transportStatus (liveCheckHandler VERSION r { healthCheckInfo := some checks }).1
      = some c → c < 500) := by
  rw [liveCheckHandler_get VERSION r checks hget]
  simp [transportStatus, reportedStatus, reportedDetails, StatusOK]

/-- Witness of C4: a GET on a snapshot whose only entry failed is answered
with 200 and carries fail in the payload. -/
theorem liveCheckHandler_get_always_200_witness :
    (Request.mk "GET").Method = MethodGet ∧
    transportStatus (liveCheckHandler "v1" (Request.mk "GET")
        { healthCheckInfo := some [("redis", { Status := Fail })] }).1 = some 200 ∧
    reportedStatus (liveCheckHandler "v1" (Request.mk "GET")
        { healthCheckInfo := some [("redis", { Status := Fail })] }).1 = some Fail :=
  ⟨by decide,
   (liveCheckHandler_get_always_200 "v1" (Request.mk "GET")
      [("redis", { Status := Fail })] (by decide)).1,
   (liveCheckHandler_get_always_200 "v1" (Request.mk "GET")
      [("redis", { Status := Fail })] (by decide)).2.1.trans (by decide)⟩

/-! ## The snapshot store -/

/-- C5, as stated, fails: on the store in which nothing was ever published
`getHealthCheckInfo` returns no snapshot, it panics in the type assertion. -/
theorem getHealthCheckInfo_initial_panics :
    ¬ ∃ h : Snapshot, getHealthCheckInfo Store.initial = .ok h := by
  simp [getHealthCheckInfo, Store.initial]

/-- C5, amended: once `initHealthCheck` has run (whatever the configuration and
whatever the store held), and before any pass has published,
`getHealthCheckInfo` returns the empty snapshot, and a GET is answered with 200,
status pass and empty details. -/
theorem getHealthCheckInfo_after_init (e : Env) (st : Store) (VERSION : String) :
    getHealthCheckInfo (initHealthCheck e st).store = .ok [] ∧
    (liveCheckHandler VERSION (Request.mk MethodGet) (initHealthCheck e st).store).1
      = .ok { code := 200,
              body := Body.report { Status := Pass, Version := VERSION,
                                    Description := "Tyk GW", Details := [] } } := by
  have hst : (initHealthCheck e st).store = { healthCheckInfo := some [] } := by
    unfold initHealthCheck
    split <;> rfl
  rw [hst, liveCheckHandler_get VERSION (Request.mk MethodGet) [] rfl]
  exact ⟨rfl, rfl⟩

/-- C6: after any sequence of `setCurrentHealthCheckInfo` calls that ends with
the map `h`, on any store, `getHealthCheckInfo` returns `h` itself. -/
theorem getHealthCheckInfo_last_published (st : Store) (earlier : List Snapshot)
    (h : Snapshot) :
    getHealthCheckInfo
        ((earlier ++ [h]).foldl (fun s x => setCurrentHealthCheckInfo x s) st)
      = .ok h := by
  simp [List.foldl_append, setCurrentHealthCheckInfo, getHealthCheckInfo]

/-! ## One pass: the map and the wait group -/

theorem mapGet_mapSet_self (m : Snapshot) (k : String) (v : HealthCheckItem) :
    mapGet (mapSet m k v) k = some v := by
  induction m with
  | nil => simp [mapSet, mapGet]
  | cons kv rest ih =>
    obtain ⟨k', v'⟩ := kv
    by_cases h : k' = k
    · simp [mapSet, mapGet, h]
    · simp [mapSet, mapGet, h, ih]

theorem mapGet_mapSet_ne (m : Snapshot) (k k' : String) (v : HealthCheckItem) (hne : k ≠ k') :
    mapGet (mapSet m k v) k' = mapGet m k' := by
  induction m with
  | nil => simp [mapSet, mapGet, hne]
  | cons kv rest ih =>
    obtain ⟨k0, v0⟩ := kv
    by_cases h : k0 = k
    · subst h
      simp [mapSet, mapGet, hne]
    · simp [mapSet, mapGet, h, ih]

theorem mapGet_mapSet_isSome (m : Snapshot) (k k' : String) (v : HealthCheckItem)
    (h : (mapGet (mapSet m k v) k').isSome) : k' = k ∨ (mapGet m k').isSome := by
  by_cases hk : k = k'
  · exact Or.inl hk.symm
  · rw [mapGet_mapSet_ne m k k' v hk] at h
    exact Or.inr h

theorem inv_enter (e : Env) (st : Store) : Inv e (PassState.enter st) := by
  constructor <;> simp [PassState.enter, ProbePC.counted, ProbePC.wrote, MainPC.rank, mapGet]

theorem inv_stepRedis {e : Env} {s : PassState} (h : Inv e s) : Inv e (stepRedis e s) := by
  obtain ⟨main, redis, dashboard, rpc, wg, allInfos, ri, di, pi, store, clock⟩ := s
  obtain ⟨h1, h2, h3, h4, h5, h6, h7, h8, h9, h10, h11, h12, h13⟩ := h
  have hne1 : ("redis" : String) ≠ "dashboard" := by decide
  have hne2 : ("redis" : String) ≠ "rpc" := by decide
  simp only at h1 h2 h3 h4 h5 h6 h7 h8 h9 h10 h11 h12 h13
  cases redis <;> simp only [HealthCheck.stepRedis] <;> constructor <;>
    simp only [mapGet_mapSet_self, mapGet_mapSet_ne _ _ _ _ hne1,
      mapGet_mapSet_ne _ _ _ _ hne2] <;>
    first
      | assumption
      | (intro _; exact h2 (by decide))
      | (simp only [ProbePC.counted] at h1 ⊢
         simp at h1 ⊢
         omega)
      | (simp only [ProbePC.wrote] at h10 ⊢
         simp at h10 ⊢
         exact h10)
      | (simp [ProbePC.wrote])
      | (intro k hk
         rcases mapGet_mapSet_isSome _ _ _ _ hk with hk' | hk'
         · exact Or.inl hk'
         · exact h13 k hk')

theorem inv_stepDashboard {e : Env} {s : PassState} (h : Inv e s) :
    Inv e (stepDashboard e s) := by
  obtain ⟨main, redis, dashboard, rpc, wg, allInfos, ri, di, pi, store, clock⟩ := s
  obtain ⟨h1, h2, h3, h4, h5, h6, h7, h8, h9, h10, h11, h12, h13⟩ := h
  have hne1 : ("dashboard" : String) ≠ "redis" := by decide
  have hne2 : ("dashboard" : String) ≠ "rpc" := by decide
  simp only at h1 h2 h3 h4 h5 h6 h7 h8 h9 h10 h11 h12 h13
  cases dashboard <;> simp only [HealthCheck.stepDashboard] <;> constructor <;>
    simp only [mapGet_mapSet_self, mapGet_mapSet_ne _ _ _ _ hne1,
      mapGet_mapSet_ne _ _ _ _ hne2] <;>
    first
      | assumption
      | (intro k hk
         rcases mapGet_mapSet_isSome _ _ _ _ hk with hk' | hk'
         · exact Or.inr (Or.inl hk')
         · exact h13 k hk')
      | (simp_all [ProbePC.wrote]; done)
      | (simp_all [ProbePC.wrote]; omega)

theorem inv_stepRpc {e : Env} {s : PassState} (h : Inv e s) :
    Inv e (stepRpc e s) := by
  obtain ⟨main, redis, dashboard, rpc, wg, allInfos, ri, di, pi, store, clock⟩ := s
  obtain ⟨h1, h2, h3, h4, h5, h6, h7, h8, h9, h10, h11, h12, h13⟩ := h
  have hne1 : ("rpc" : String) ≠ "redis" := by decide
  have hne2 : ("rpc" : String) ≠ "dashboard" := by decide
  simp only at h1 h2 h3 h4 h5 h6 h7 h8 h9 h10 h11 h12 h13
  cases rpc <;> simp only [HealthCheck.stepRpc] <;> constructor <;>
    simp only [mapGet_mapSet_self, mapGet_mapSet_ne _ _ _ _ hne1,
      mapGet_mapSet_ne _ _ _ _ hne2] <;>
    first
      | assumption
      | (intro k hk
         rcases mapGet_mapSet_isSome _ _ _ _ hk with hk' | hk'
         · exact Or.inr (Or.inr hk')
         · exact h13 k hk')
      | (simp_all [ProbePC.wrote]; done)
      | (simp_all [ProbePC.wrote]; omega)

theorem count_zero (a b c : Prop) [Decidable a] [Decidable b] [Decidable c]
    (h : ((if a then (1 : Int) else 0) + (if b then 1 else 0) + (if c then 1 else 0)) = 0) :
    ¬ a ∧ ¬ b ∧ ¬ c := by
  by_cases ha : a <;> by_cases hb : b <;> by_cases hc : c <;> simp [ha, hb, hc] at h ⊢

theorem inv_stepMain {e : Env} {s : PassState} (h : Inv e s) :
    Inv e (stepMain e s) := by
  obtain ⟨main, redis, dashboard, rpc, wg, allInfos, ri, di, pi, store, clock⟩ := s
  obtain ⟨h1, h2, h3, h4, h5, h6, h7, h8, h9, h10, h11, h12, h13⟩ := h
  simp only at h1 h2 h3 h4 h5 h6 h7 h8 h9 h10 h11 h12 h13
  cases main
  case wait =>
    simp only [HealthCheck.stepMain]
    split
    · rename_i hw
      rw [h1] at hw
      obtain ⟨-, hd, hr⟩ := count_zero _ _ _ hw
      have hd' : e.UseDBAppConfigs = true → dashboard = .finished := fun hU => by
        by_contra hne
        exact hd ⟨hU, by decide, hne⟩
      have hr' : e.PolicySource = "rpc" → rpc = .finished := fun hU => by
        by_contra hne
        exact hr ⟨hU, by decide, hne⟩
      refine ⟨?_, ?_, ?_, ?_, h5, h6, ?_, ?_, fun _ => ⟨hd', hr'⟩, h10, h11, h12, h13⟩
      · simpa [MainPC.rank] using h1
      · intro _; simp [MainPC.rank]
      · intro hx; exact ⟨(h3 hx).1, by simp [MainPC.rank]⟩
      · intro hx; exact ⟨(h4 hx).1, by simp [MainPC.rank]⟩
      · intro hc; cases hc
      · intro hc; cases hc
    · exact ⟨h1, h2, h3, h4, h5, h6, h7, h8, h9, h10, h11, h12, h13⟩
  all_goals
    (simp only [HealthCheck.stepMain]; (try split)) <;> constructor <;>
    first
      | assumption
      | simp_all [ProbePC.wrote, ProbePC.counted, MainPC.rank, mapGet]

theorem inv_step {e : Env} {s : PassState} (h : Inv e s) (t : Tid) : Inv e (step e s t) := by
  have key : ∀ s' : PassState, Inv e s' → Inv e { s' with clock := s.clock + 1 } :=
    fun s' h' => ⟨h'.wg_eq, h'.redis_started, h'.dash_started, h'.rpc_started, h'.dash_no_add,
      h'.rpc_no_add, h'.main_dashGo, h'.main_rpcGo, h'.waited, h'.has_redis, h'.has_dash,
      h'.has_rpc, h'.keys⟩
  cases t
  · exact key _ (inv_stepMain h)
  · exact key _ (inv_stepRedis h)
  · exact key _ (inv_stepDashboard h)
  · exact key _ (inv_stepRpc h)

theorem inv_foldl_step {e : Env} (sched : List Tid) {s : PassState} (h : Inv e s) :
    Inv e (sched.foldl (HealthCheck.step e) s) := by
  induction sched generalizing s with
  | nil => exact h
  | cons t rest ih => exact ih (inv_step h t)

theorem inv_of_gatherHealthChecks (e : Env) (sched : List Tid) (st : Store) :
    Inv e (gatherHealthChecks e sched st) :=
  inv_foldl_step sched (inv_enter e st)

theorem itemInv_enter (e : Env) (st : Store) : ItemInv e (PassState.enter st) := by
  constructor <;> simp [PassState.enter, mapGet]

theorem itemInv_stepRedis {e : Env} {s : PassState} (h : ItemInv e s) :
    ItemInv e (stepRedis e s) := by
  obtain ⟨main, redis, dashboard, rpc, wg, allInfos, ri, di, pi, store, clock⟩ := s
  obtain ⟨h1, h2, h3, h4, h5, h6, h7, h8, h9⟩ := h
  have hne1 : ("redis" : String) ≠ "dashboard" := by decide
  have hne2 : ("redis" : String) ≠ "rpc" := by decide
  simp only at h1 h2 h3 h4 h5 h6 h7 h8 h9
  cases redis <;> simp only [HealthCheck.stepRedis] <;> constructor <;>
    simp only [mapGet_mapSet_self, mapGet_mapSet_ne _ _ _ _ hne1,
      mapGet_mapSet_ne _ _ _ _ hne2] <;>
    first
      | assumption
      | (intro hc; cases hc; done)
      | (intro _; exact ⟨clock, rfl⟩)
      | (intro _; obtain ⟨t, ht⟩ := h1 rfl; exact ⟨t, by rw [ht]⟩)
      | (intro v hv; cases hv; exact h2 rfl)

theorem itemInv_stepDashboard {e : Env} {s : PassState} (h : ItemInv e s) :
    ItemInv e (stepDashboard e s) := by
  obtain ⟨main, redis, dashboard, rpc, wg, allInfos, ri, di, pi, store, clock⟩ := s
  obtain ⟨h1, h2, h3, h4, h5, h6, h7, h8, h9⟩ := h
  have hne1 : ("dashboard" : String) ≠ "redis" := by decide
  have hne2 : ("dashboard" : String) ≠ "rpc" := by decide
  simp only at h1 h2 h3 h4 h5 h6 h7 h8 h9
  cases dashboard <;> simp only [HealthCheck.stepDashboard] <;> constructor <;>
    simp only [mapGet_mapSet_self, mapGet_mapSet_ne _ _ _ _ hne1,
      mapGet_mapSet_ne _ _ _ _ hne2] <;>
    first
      | assumption
      | (intro hc; cases hc; done)
      | (intro _; exact ⟨clock, rfl⟩)
      | (intro _; obtain ⟨t, ht⟩ := h4 rfl; exact ⟨t, by rw [ht]⟩)
      | (intro v hv; cases hv; obtain ⟨t, ht⟩ := h5 rfl; exact ⟨t, by rw [ht]⟩)

theorem itemInv_stepRpc {e : Env} {s : PassState} (h : ItemInv e s) :
    ItemInv e (stepRpc e s) := by
  obtain ⟨main, redis, dashboard, rpc, wg, allInfos, ri, di, pi, store, clock⟩ := s
  obtain ⟨h1, h2, h3, h4, h5, h6, h7, h8, h9⟩ := h
  have hne1 : ("rpc" : String) ≠ "redis" := by decide
  have hne2 : ("rpc" : String) ≠ "dashboard" := by decide
  simp only at h1 h2 h3 h4 h5 h6 h7 h8 h9
  cases rpc <;> simp only [HealthCheck.stepRpc] <;> constructor <;>
    simp only [mapGet_mapSet_self, mapGet_mapSet_ne _ _ _ _ hne1,
      mapGet_mapSet_ne _ _ _ _ hne2] <;>
    first
      | assumption
      | (intro hc; cases hc; done)
      | (intro _; exact ⟨clock, rfl⟩)
      | (intro _; obtain ⟨t, ht⟩ := h7 rfl; exact ⟨t, by rw [ht]⟩)
      | (intro v hv; cases hv; obtain ⟨t, ht⟩ := h8 rfl; exact ⟨t, by rw [ht]⟩)

theorem itemInv_stepMain {e : Env} {s : PassState} (h : ItemInv e s) :
    ItemInv e (stepMain e s) := by
  obtain ⟨main, redis, dashboard, rpc, wg, allInfos, ri, di, pi, store, clock⟩ := s
  obtain ⟨h1, h2, h3, h4, h5, h6, h7, h8, h9⟩ := h
  simp only at h1 h2 h3 h4 h5 h6 h7 h8 h9
  cases main <;> simp only [HealthCheck.stepMain] <;> (try split) <;> constructor <;>
    first
      | assumption
      | (intro hc; cases hc; done)
      | (intro v hv; simp [mapGet] at hv)

theorem itemInv_step {e : Env} {s : PassState} (h : ItemInv e s) (t : Tid) :
    ItemInv e (step e s t) := by
  have key : ∀ s' : PassState, ItemInv e s' → ItemInv e { s' with clock := s.clock + 1 } :=
    fun s' h' => ⟨h'.redis_call, h'.redis_write, h'.redis_entry, h'.dash_call, h'.dash_write,
      h'.dash_entry, h'.rpc_call, h'.rpc_write, h'.rpc_entry⟩
  cases t
  · exact key _ (itemInv_stepMain h)
  · exact key _ (itemInv_stepRedis h)
  · exact key _ (itemInv_stepDashboard h)
  · exact key _ (itemInv_stepRpc h)

theorem itemInv_foldl_step {e : Env} (sched : List Tid) {s : PassState} (h : ItemInv e s) :
    ItemInv e (sched.foldl (HealthCheck.step e) s) := by
  induction sched generalizing s with
  | nil => exact h
  | cons t rest ih => exact ih (itemInv_step h t)

theorem itemInv_of_gatherHealthChecks (e : Env) (sched : List Tid) (st : Store) :
    ItemInv e (gatherHealthChecks e sched st) :=
  itemInv_foldl_step sched (itemInv_enter e st)

theorem sim_enter (e e' : Env) (st st' : Store) :
    Sim e e' (PassState.enter st) (PassState.enter st') := by
  constructor <;> simp [PassState.enter]

theorem sim_step {e e' : Env} {s s' : PassState}
    (hU : e.UseDBAppConfigs = e'.UseDBAppConfigs) (hP : e.PolicySource = e'.PolicySource)
    (hN : e.now = e'.now) (h : Sim e e' s s') (t : Tid) :
    Sim e e' (step e s t) (step e' s' t) := by
  obtain ⟨main, redis, dashboard, rpc, wg, allInfos, ri, di, pi, store, clock⟩ := s
  obtain ⟨main', redis', dashboard', rpc', wg', allInfos', ri', di', pi', store', clock'⟩ := s'
  obtain ⟨h1, h2, h3, h4, h5, h6, h7, h8, h9⟩ := h
  simp only at h1 h2 h3 h4 h5 h6 h7 h8 h9
  subst h1 h2 h3 h4 h5 h6
  have hne1 : ("redis" : String) ≠ "dashboard" := by decide
  have hne2 : ("redis" : String) ≠ "rpc" := by decide
  have hne3 : ("dashboard" : String) ≠ "redis" := by decide
  have hne4 : ("dashboard" : String) ≠ "rpc" := by decide
  have hne5 : ("rpc" : String) ≠ "redis" := by decide
  have hne6 : ("rpc" : String) ≠ "dashboard" := by decide
  cases t
  · cases main <;> simp only [HealthCheck.step, stepMain, ← hU, ← hP] <;> (try split) <;>
      constructor <;>
      first
        | rfl
        | assumption
        | (intro _; exact ⟨(h7 ‹_›).1, rfl⟩)
        | (intro _; exact ⟨(h8 ‹_›).1, rfl⟩)
        | (intro _; exact ⟨(h9 ‹_›).1, rfl⟩)
  · cases redis <;> simp only [HealthCheck.step, stepRedis, ← hN] <;> constructor <;>
      simp only [mapGet_mapSet_self, mapGet_mapSet_ne _ _ _ _ hne1,
        mapGet_mapSet_ne _ _ _ _ hne2] <;>
      first
        | rfl
        | assumption
        | (intro hx; obtain ⟨ha, hb⟩ := h7 hx; simp [← hx, ha, hb])
  · cases dashboard <;> simp only [HealthCheck.step, stepDashboard, ← hN] <;> constructor <;>
      simp only [mapGet_mapSet_self, mapGet_mapSet_ne _ _ _ _ hne3,
        mapGet_mapSet_ne _ _ _ _ hne4] <;>
      first
        | rfl
        | assumption
        | (intro hx; obtain ⟨ha, hb⟩ := h8 hx; simp [← hx, ha, hb])
  · cases rpc <;> simp only [HealthCheck.step, stepRpc, ← hN] <;> constructor <;>
      simp only [mapGet_mapSet_self, mapGet_mapSet_ne _ _ _ _ hne5,
        mapGet_mapSet_ne _ _ _ _ hne6] <;>
      first
        | rfl
        | assumption
        | (intro hx; obtain ⟨ha, hb⟩ := h9 hx; simp [← hx, ha, hb])

theorem sim_foldl_step {e e' : Env} (hU : e.UseDBAppConfigs = e'.UseDBAppConfigs)
    (hP : e.PolicySource = e'.PolicySource) (hN : e.now = e'.now) (sched : List Tid)
    {s s' : PassState} (h : Sim e e' s s') :
    Sim e e' (sched.foldl (HealthCheck.step e) s) (sched.foldl (HealthCheck.step e') s') := by
  induction sched generalizing s s' with
  | nil => exact h
  | cons t rest ih => exact ih (sim_step hU hP hN h t)

theorem sim_of_gatherHealthChecks {e e' : Env} (hU : e.UseDBAppConfigs = e'.UseDBAppConfigs)
    (hP : e.PolicySource = e'.PolicySource) (hN : e.now = e'.now) (sched : List Tid)
    (st : Store) : Sim e e' (gatherHealthChecks e sched st) (gatherHealthChecks e' sched st) :=
  sim_foldl_step hU hP hN sched (sim_enter e e' st st)

/-! ## One pass: what is published -/

theorem stepRedis_main (e : Env) (s : PassState) : (stepRedis e s).main = s.main := by
  unfold stepRedis; split <;> rfl

theorem stepDashboard_main (e : Env) (s : PassState) : (stepDashboard e s).main = s.main := by
  unfold stepDashboard; split <;> rfl

theorem stepRpc_main (e : Env) (s : PassState) : (stepRpc e s).main = s.main := by
  unfold stepRpc; split <;> rfl

theorem step_publish (e : Env) (s : PassState) (h : s.main = .publish) :
    (step e s .main).main = .returned := by
  simp [step, stepMain, h]

theorem step_main_returned (e : Env) (s : PassState) (t : Tid)
    (h : (step e s t).main = .returned) (hne : s.main ≠ .returned) :
    s.main = .publish ∧ t = .main := by
  cases t
  · refine ⟨?_, rfl⟩
    simp only [step, stepMain] at h
    cases hm : s.main <;> simp only [hm] at h <;>
      first
        | rfl
        | (exact absurd hm hne)
        | (cases h)
        | (split at h <;> simp [hm] at h)
  · exact absurd ((stepRedis_main e s).symm.trans h) hne
  · exact absurd ((stepDashboard_main e s).symm.trans h) hne
  · exact absurd ((stepRpc_main e s).symm.trans h) hne

theorem returned_stable (e : Env) (sched : List Tid) (s : PassState)
    (h : s.main = .returned) : (sched.foldl (step e) s).main = .returned := by
  induction sched generalizing s with
  | nil => exact h
  | cons t rest ih =>
    apply ih
    cases t
    · simp [step, stepMain, h]
    · exact (stepRedis_main e s).trans h
    · exact (stepDashboard_main e s).trans h
    · exact (stepRpc_main e s).trans h

theorem publishedSnapshot_go_isSome (e : Env) (sched : List Tid) (s : PassState)
    (hne : s.main ≠ .returned) :
    (publishedSnapshot.go e s sched).isSome = true
      ↔ (sched.foldl (step e) s).main = .returned := by
  induction sched generalizing s with
  | nil => simp [publishedSnapshot.go, hne]
  | cons t rest ih =>
    unfold publishedSnapshot.go
    by_cases hc : s.main = .publish ∧ t = .main
    · obtain ⟨hp, ht⟩ := hc
      subst ht
      simp only [hp, and_self, if_true, Option.isSome_some, List.foldl_cons, true_iff]
      exact returned_stable e rest _ (step_publish e s hp)
    · rw [if_neg hc, List.foldl_cons]
      exact ih _ (fun h => hc (step_main_returned e s t h hne))

theorem published_iff (e : Env) (sched : List Tid) (st : Store) :
    (gatherHealthChecks e sched st).published = true
      ↔ (publishedSnapshot e sched st).isSome = true := by
  rw [publishedSnapshot, publishedSnapshot_go_isSome e sched _ (by simp [PassState.enter])]
  simp [PassState.published, gatherHealthChecks]

theorem publishedSnapshot_go_inv (e : Env) (sched : List Tid) (s : PassState)
    (snap : Snapshot) (hs : Inv e s) (h : publishedSnapshot.go e s sched = some snap) :
    ∃ s', Inv e s' ∧ s'.main = .publish ∧ s'.allInfos = snap := by
  induction sched generalizing s with
  | nil => simp [publishedSnapshot.go] at h
  | cons t rest ih =>
    unfold publishedSnapshot.go at h
    split at h
    · rename_i hc
      exact ⟨s, hs, hc.1, by simpa using h⟩
    · exact ih _ (inv_step hs t) h

theorem keys_after_wait {e : Env} {s : PassState} (hs : Inv e s) (hm : 6 ≤ s.main.rank) :
    ((mapGet s.allInfos "dashboard").isSome = true ↔ e.UseDBAppConfigs = true) ∧
    ((mapGet s.allInfos "rpc").isSome = true ↔ e.PolicySource = "rpc") := by
  obtain ⟨hd, hr⟩ := hs.waited hm
  constructor
  · rw [hs.has_dash]
    constructor
    · intro hw
      exact (hs.dash_started (by rcases hw with h | h <;> simp [h])).1
    · intro hU
      exact Or.inr (hd hU)
  · rw [hs.has_rpc]
    constructor
    · intro hw
      exact (hs.rpc_started (by rcases hw with h | h <;> simp [h])).1
    · intro hU
      exact Or.inr (hr hU)

theorem sequentialSchedule_publishes (e : Env) (st : Store) :
    ∃ snap, publishedSnapshot e (sequentialSchedule e) st = some snap ∧
      (mapGet snap "redis").isSome = true := by
  by_cases hd : e.UseDBAppConfigs = true <;> by_cases hr : e.PolicySource = "rpc" <;>
    simp [publishedSnapshot, publishedSnapshot.go, sequentialSchedule, hd, hr, step, stepMain,
      stepRedis, stepDashboard, stepRpc, PassState.enter, mapSet, mapGet]

/-- C7: a pass can publish, and in every interleaving the snapshot it publishes
holds the key "dashboard" exactly when `UseDBAppConfigs` is set and the key
"rpc" exactly when the policy source is "rpc", whatever the store held before;
the same is true of the stored map at any later moment of the pass. -/
theorem gatherHealthChecks_disabled_probe_absent (e : Env) (st : Store) :
    (∃ snap, publishedSnapshot e (sequentialSchedule e) st = some snap) ∧
    (∀ sched snap, publishedSnapshot e sched st = some snap →
      ((mapGet snap "dashboard").isSome = true ↔ e.UseDBAppConfigs = true) ∧
      ((mapGet snap "rpc").isSome = true ↔ e.PolicySource = "rpc")) ∧
    (∀ sched snap,
      getHealthCheckInfo (gatherHealthChecks e sched st).healthCheckInfo = .ok snap →
      (gatherHealthChecks e sched st).published = true →
      ((mapGet snap "dashboard").isSome = true ↔ e.UseDBAppConfigs = true) ∧
      ((mapGet snap "rpc").isSome = true ↔ e.PolicySource = "rpc")) := by
  refine ⟨?_, ?_, ?_⟩
  · obtain ⟨snap, h, -⟩ := sequentialSchedule_publishes e st
    exact ⟨snap, h⟩
  · intro sched snap h
    obtain ⟨s', hs', hm, rfl⟩ := publishedSnapshot_go_inv e sched _ snap (inv_enter e st) h
    exact keys_after_wait hs' (by simp [hm, MainPC.rank])
  · intro sched snap hget hpub
    have hs := inv_of_gatherHealthChecks e sched st
    have hm : (gatherHealthChecks e sched st).main = .returned := by
      simpa [PassState.published] using hpub
    have hsnap : snap = (gatherHealthChecks e sched st).allInfos := by
      simp [PassState.healthCheckInfo, hpub, setCurrentHealthCheckInfo, getHealthCheckInfo]
        at hget
      exact hget.symm
    rw [hsnap]
    exact keys_after_wait hs (by simp [hm, MainPC.rank])

/-- Witness of C7: with the control plane and RPC enabled, the sequential
interleaving publishes a snapshot with both keys. -/
theorem gatherHealthChecks_disabled_probe_absent_witness :
    (mapGet [("redis", recordError (newCheckItem "2020-01-01T00:00:00Z") (some "connection refused")),
             ("dashboard", retagSystem (newCheckItem "2020-01-01T00:00:00Z")),
             ("rpc", retagSystem (recordConnect (newCheckItem "2020-01-01T00:00:00Z") false))]
        "dashboard").isSome = true ↔ failingEnv.UseDBAppConfigs = true :=
  ((gatherHealthChecks_disabled_probe_absent failingEnv Store.initial).2.1
    (sequentialSchedule failingEnv) _ (by decide)).1

/-- C8, the failing interleaving: with only the store probe enabled, the caller
runs up to line 179 before the store goroutine has run its `wg.Add(1)`;
`wg.Wait()` finds the counter at 0, and the map is published without a "redis"
entry while the store probe has not yet made its call. -/
theorem gatherHealthChecks_publishes_without_redis :
    publishedSnapshot quietEnv callerFirstSchedule Store.initial = some [] ∧
    (gatherHealthChecks quietEnv callerFirstSchedule Store.initial).published = true ∧
    (gatherHealthChecks quietEnv callerFirstSchedule Store.initial).redis = .add ∧
    (gatherHealthChecks quietEnv callerFirstSchedule Store.initial).healthCheckInfo
      = { healthCheckInfo := some [] } ∧
    (publishedSnapshot quietEnv callerFirstSchedule Store.initial).bind
      (fun snap => mapGet snap "redis") = none := by
  decide


theorem sequentialSchedule_complete (e : Env) (st : Store) :
    (gatherHealthChecks e (sequentialSchedule e) st).published = true ∧
    (mapGet (gatherHealthChecks e (sequentialSchedule e) st).allInfos "redis").isSome = true ∧
    (e.UseDBAppConfigs = true →
      (mapGet (gatherHealthChecks e (sequentialSchedule e) st).allInfos "dashboard").isSome
        = true) ∧
    (e.PolicySource = "rpc" →
      (mapGet (gatherHealthChecks e (sequentialSchedule e) st).allInfos "rpc").isSome = true) := by
  by_cases hd : e.UseDBAppConfigs = true <;> by_cases hr : e.PolicySource = "rpc" <;>
    simp [gatherHealthChecks, PassState.published, sequentialSchedule, hd, hr, step, stepMain,
      stepRedis, stepDashboard, stepRpc, PassState.enter, mapSet, mapGet]

theorem recordError_spec (item : HealthCheckItem) (err : Option String) :
    (∀ msg, err = some msg →
      (recordError item err).Status = Fail ∧ (recordError item err).Output = msg) ∧
    (err = none → recordError item err = item) := by
  cases err <;> simp [recordError]

theorem recordConnect_spec (item : HealthCheckItem) (connected : Bool) :
    (connected = false →
      (recordConnect item connected).Status = Fail ∧
      (recordConnect item connected).Output = "Could not connect to RPC") ∧
    (connected = true → recordConnect item connected = item) := by
  cases connected <;> simp [recordConnect]

/-- C9: in every interleaving of a pass, an entry under "redis" or "dashboard"
has status fail and the error's message as output when the dependency call
returned an error, status pass and empty output when it returned none; an entry
under "rpc" has status fail and output "Could not connect to RPC" when the
connection failed, status pass and empty output otherwise. Under other answers
of the dependencies the same interleaving publishes or not alike, and the entry
of a probe whose own dependency answers the same is the same. In the sequential
interleaving the pass publishes and every enabled probe has its entry. -/
theorem gatherHealthChecks_probe_error_is_entry (e : Env) (sched : List Tid) (st : Store) :
    (∀ v, mapGet (gatherHealthChecks e sched st).allInfos "redis" = some v →
      (∀ msg, e.setRawKey = some msg → v.Status = Fail ∧ v.Output = msg) ∧
      (e.setRawKey = none → v.Status = Pass ∧ v.Output = "")) ∧
    (∀ v, mapGet (gatherHealthChecks e sched st).allInfos "dashboard" = some v →
      (∀ msg, e.ping = some msg → v.Status = Fail ∧ v.Output = msg) ∧
      (e.ping = none → v.Status = Pass ∧ v.Output = "")) ∧
    (∀ v, mapGet (gatherHealthChecks e sched st).allInfos "rpc" = some v →
      (e.connect = false → v.Status = Fail ∧ v.Output = "Could not connect to RPC") ∧
      (e.connect = true → v.Status = Pass ∧ v.Output = "")) ∧
    (∀ e' : Env, e'.UseDBAppConfigs = e.UseDBAppConfigs → e'.PolicySource = e.PolicySource →
      e'.now = e.now →
      (gatherHealthChecks e' sched st).published = (gatherHealthChecks e sched st).published ∧
      (e'.setRawKey = e.setRawKey →
        mapGet (gatherHealthChecks e' sched st).allInfos "redis"
          = mapGet (gatherHealthChecks e sched st).allInfos "redis") ∧
      (e'.ping = e.ping →
        mapGet (gatherHealthChecks e' sched st).allInfos "dashboard"
          = mapGet (gatherHealthChecks e sched st).allInfos "dashboard") ∧
      (e'.connect = e.connect →
        mapGet (gatherHealthChecks e' sched st).allInfos "rpc"
          = mapGet (gatherHealthChecks e sched st).allInfos "rpc")) ∧
    ((gatherHealthChecks e (sequentialSchedule e) st).published = true ∧
      (mapGet (gatherHealthChecks e (sequentialSchedule e) st).allInfos "redis").isSome = true ∧
      (e.UseDBAppConfigs = true →
        (mapGet (gatherHealthChecks e (sequentialSchedule e) st).allInfos "dashboard").isSome
          = true) ∧
      (e.PolicySource = "rpc" →
        (mapGet (gatherHealthChecks e (sequentialSchedule e) st).allInfos "rpc").isSome
          = true)) := by
  have hi := itemInv_of_gatherHealthChecks e sched st
  refine ⟨?_, ?_, ?_, ?_, sequentialSchedule_complete e st⟩
  · intro v hv
    obtain ⟨t, rfl⟩ := hi.redis_entry v hv
    refine ⟨(recordError_spec _ _).1, fun hn => ?_⟩
    rw [(recordError_spec _ _).2 hn]
    exact ⟨rfl, rfl⟩
  · intro v hv
    obtain ⟨t, rfl⟩ := hi.dash_entry v hv
    refine ⟨fun msg hm => (recordError_spec _ _).1 msg hm, fun hn => ?_⟩
    rw [(recordError_spec _ _).2 hn]
    exact ⟨rfl, rfl⟩
  · intro v hv
    obtain ⟨t, rfl⟩ := hi.rpc_entry v hv
    refine ⟨fun hc => (recordConnect_spec _ _).1 hc, fun hc => ?_⟩
    rw [(recordConnect_spec _ _).2 hc]
    exact ⟨rfl, rfl⟩
  · intro e' hU hP hN
    have hsim := sim_of_gatherHealthChecks hU hP hN sched st
    refine ⟨?_, fun h => (hsim.redis_same h).2, fun h => (hsim.dash_same h).2,
      fun h => (hsim.rpc_same h).2⟩
    simp [PassState.published, hsim.main]

/-- Witness of C9: with the store unreachable, the sequential interleaving
writes a "redis" entry with status fail and the error's message as output. -/
theorem gatherHealthChecks_probe_error_is_entry_witness :
    mapGet (gatherHealthChecks failingEnv (sequentialSchedule failingEnv) Store.initial).allInfos
        "redis"
      = some (recordError (newCheckItem "2020-01-01T00:00:00Z") (some "connection refused")) ∧
    failingEnv.setRawKey = some "connection refused" ∧
    (recordError (newCheckItem "2020-01-01T00:00:00Z") (some "connection refused")).Status
      = Fail ∧
    (recordError (newCheckItem "2020-01-01T00:00:00Z") (some "connection refused")).Output
      = "connection refused" :=
  ⟨by decide, rfl,
   ((gatherHealthChecks_probe_error_is_entry failingEnv (sequentialSchedule failingEnv)
      Store.initial).1 _ (by decide)).1 "connection refused" rfl⟩

/-! ## The scheduler -/

theorem initHealthCheck_passes (e : Env) (st : Store) :
    (initHealthCheck e st).passes = 0 ∧
    (initHealthCheck e st).store = { healthCheckInfo := some [] } := by
  unfold initHealthCheck
  split <;> exact ⟨rfl, rfl⟩

theorem countTicks_cons (ev : Event) (evs : List Event) :
    countTicks (ev :: evs) = countTicks [ev] + countTicks evs := by
  cases ev <;> simp [countTicks, List.filter_cons]
  omega

theorem select_running (s : Scheduler) (ev : Event) (h : (s.select ev).loop = .running) :
    s.loop = .running ∧ (s.select ev).passes = s.passes + 1 ∧ countTicks [ev] = 1 := by
  unfold Scheduler.select at h ⊢
  cases hl : s.loop <;> simp only [hl] at h ⊢ <;> try (cases h)
  cases ev
  · simp at h
  · simp [countTicks]

theorem select_passes_le (s : Scheduler) (ev : Event) :
    (s.select ev).passes ≤ s.passes + countTicks [ev] := by
  unfold Scheduler.select
  cases s.loop <;> simp only <;> try omega
  cases ev <;> simp [countTicks]

theorem foldl_select_running (evs : List Event) (s : Scheduler)
    (h : (evs.foldl Scheduler.select s).loop = .running) :
    s.loop = .running ∧ (evs.foldl Scheduler.select s).passes = s.passes + countTicks evs ∧
      countTicks evs = evs.length := by
  induction evs generalizing s with
  | nil => exact ⟨h, by simp [countTicks], by simp [countTicks]⟩
  | cons ev rest ih =>
    obtain ⟨h1, h2, h3⟩ := ih (s.select ev) h
    obtain ⟨h4, h5, h6⟩ := select_running s ev h1
    refine ⟨h4, ?_, ?_⟩
    · rw [List.foldl_cons, h2, h5, countTicks_cons ev rest, h6]
      omega
    · rw [countTicks_cons ev rest, h6, h3, List.length_cons]
      omega

theorem foldl_select_passes_le (evs : List Event) (s : Scheduler) :
    (evs.foldl Scheduler.select s).passes ≤ s.passes + countTicks evs := by
  induction evs generalizing s with
  | nil => simp [countTicks]
  | cons ev rest ih =>
    have h1 := ih (s.select ev)
    have h2 := select_passes_le s ev
    rw [List.foldl_cons, countTicks_cons ev rest]
    omega

/-- C10, as stated, fails: after `initHealthCheck` the scheduler sits in its
`select` with the empty snapshot published and no pass made; the first pass is
the one of the first tick. -/
theorem initHealthCheck_no_pass_before_first_tick :
    (runScheduler quietEnv Store.initial []).loop = .running ∧
    (runScheduler quietEnv Store.initial []).passes = 0 ∧
    (runScheduler quietEnv Store.initial []).store = { healthCheckInfo := some [] } ∧
    (runScheduler quietEnv Store.initial
      [.tick quietEnv (sequentialSchedule quietEnv)]).passes = 1 := by
  decide

/-- C10, amended: `initHealthCheck` publishes the empty snapshot and makes no
pass before the first tick; the scheduler never makes more passes than it was
given ticks, and while its loop is running it has made exactly one pass per
round of the loop, each of them a tick. -/
theorem initHealthCheck_one_pass_per_tick (e : Env) (st : Store) (evs : List Event)
    (hrun : (runScheduler e st evs).loop = .running) :
    (runScheduler e st []).passes = 0 ∧
    (runScheduler e st []).store = { healthCheckInfo := some [] } ∧
    (runScheduler e st evs).passes = countTicks evs ∧
    countTicks evs = evs.length ∧
    (∀ evs' : List Event, (runScheduler e st evs').passes ≤ countTicks evs') := by
  obtain ⟨h0, hst⟩ := initHealthCheck_passes e st
  obtain ⟨-, h2, h3⟩ := foldl_select_running evs _ hrun
  refine ⟨h0, hst, ?_, h3, fun evs' => ?_⟩
  · rw [runScheduler, h2, h0]; omega
  · have := foldl_select_passes_le evs' (initHealthCheck e st)
    rw [h0] at this
    simpa [runScheduler] using this

/-- Witness of C10, amended: two ticks whose passes return give two passes. -/
theorem initHealthCheck_one_pass_per_tick_witness :
    (runScheduler quietEnv Store.initial
      [.tick quietEnv (sequentialSchedule quietEnv),
       .tick failingEnv (sequentialSchedule failingEnv)]).loop = .running ∧
    (runScheduler quietEnv Store.initial
      [.tick quietEnv (sequentialSchedule quietEnv),
       .tick failingEnv (sequentialSchedule failingEnv)]).passes
      = countTicks [.tick quietEnv (sequentialSchedule quietEnv),
                    .tick failingEnv (sequentialSchedule failingEnv)] :=
  ⟨by decide,
   (initHealthCheck_one_pass_per_tick quietEnv Store.initial
      [.tick quietEnv (sequentialSchedule quietEnv),
       .tick failingEnv (sequentialSchedule failingEnv)] (by decide)).2.2.1⟩

/-! ## The scheduler: period and cancellation -/

theorem wrapInt64_of_fits (x : Int) (h1 : -(2 ^ 63) ≤ x) (h2 : x < 2 ^ 63) :
    wrapInt64 x = x := by
  unfold wrapInt64
  omega

theorem tickPeriod_of_fits (e : Env) (h0 : 0 ≤ e.CheckDuration)
    (h1 : e.CheckDuration ≤ maxCheckDuration) :
    tickPeriod e = Second * (if e.CheckDuration = 0 then 10 else e.CheckDuration) ∧
    0 < tickPeriod e := by
  unfold tickPeriod maxCheckDuration at *
  simp only [Second]
  by_cases hz : e.CheckDuration = 0
  · simp only [hz, if_true]
    decide
  · simp only [hz, if_false]
    rw [wrapInt64_of_fits _ (by omega) (by omega)]
    exact ⟨rfl, by omega⟩

theorem wrapInt64_range (x : Int) : -(2 ^ 63) ≤ wrapInt64 x ∧ wrapInt64 x < 2 ^ 63 := by
  unfold wrapInt64
  omega

theorem initHealthCheck_loop_period (e : Env) (st : Store) :
    (initHealthCheck e st).period = tickPeriod e ∧
    ((initHealthCheck e st).loop = .running ↔ 0 < tickPeriod e) ∧
    ((initHealthCheck e st).loop = .panicked ↔ tickPeriod e ≤ 0) := by
  by_cases h : tickPeriod e ≤ 0
  · have hi : initHealthCheck e st
        = { store := setCurrentHealthCheckInfo [] st, loop := .panicked,
            period := tickPeriod e } := by
      unfold initHealthCheck
      simp only [if_pos h]
    rw [hi]
    refine ⟨rfl, ⟨fun hc => Loop.noConfusion hc, fun hp => ?_⟩, ⟨fun _ => h, fun _ => rfl⟩⟩
    omega
  · have hi : initHealthCheck e st
        = { store := setCurrentHealthCheckInfo [] st, loop := .running,
            period := tickPeriod e } := by
      unfold initHealthCheck
      simp only [if_neg h]
    rw [hi]
    refine ⟨rfl, ⟨fun _ => ?_, fun _ => rfl⟩, ⟨fun hc => Loop.noConfusion hc, fun hp => absurd hp h⟩⟩
    omega

theorem tickPeriod_of_negative_fits (e : Env) (h0 : -maxCheckDuration ≤ e.CheckDuration)
    (h1 : e.CheckDuration < 0) :
    tickPeriod e = Second * e.CheckDuration ∧ tickPeriod e ≤ 0 := by
  unfold tickPeriod maxCheckDuration at *
  have hz : e.CheckDuration ≠ 0 := by omega
  simp only [Second, hz, if_false]
  rw [wrapInt64_of_fits _ (by omega) (by omega)]
  exact ⟨rfl, by omega⟩

theorem tickPeriod_of_overflow (e : Env)
    (h : maxCheckDuration < e.CheckDuration ∨ e.CheckDuration < -maxCheckDuration) :
    tickPeriod e ≠ Second * e.CheckDuration := by
  unfold tickPeriod maxCheckDuration at *
  have hz : e.CheckDuration ≠ 0 := by omega
  simp only [Second, hz, if_false]
  have hr := wrapInt64_range (1000000000 * e.CheckDuration)
  omega

/-- C11, as stated, fails: a configured `CheckDuration` of 9223372037 gives a
period that is not 9223372037 seconds (the product with `time.Second` wraps
around in `int64`, to a negative duration), and on it, as on the configured
value -1, `time.NewTicker` panics and the loop never runs; the configured value
-9223372037 wraps to a positive period, which is not that number of seconds
either. -/
theorem initHealthCheck_tick_period_wraps :
    (initHealthCheck (envWithDuration 9223372037) Store.initial).period
      ≠ Second * 9223372037 ∧
    (initHealthCheck (envWithDuration 9223372037) Store.initial).period
      = -9223372036709551616 ∧
    (initHealthCheck (envWithDuration 9223372037) Store.initial).loop = .panicked ∧
    (initHealthCheck (envWithDuration (-1)) Store.initial).loop = .panicked ∧
    (initHealthCheck (envWithDuration (-9223372037)) Store.initial).loop = .running ∧
    (initHealthCheck (envWithDuration (-9223372037)) Store.initial).period
      = 9223372036709551616 := by
  decide

/-- C11, amended: for a configured `CheckDuration` of `n`, the period is 10
seconds when `n = 0` and exactly `n` seconds when `1 ≤ n ≤ 9223372036`, and the
ticker is created; when `-9223372036 ≤ n ≤ -1` the period is the negative
duration of `n` seconds and `time.NewTicker` panics; when `n` lies beyond
`9223372036` or below `-9223372036` the period is not `n` seconds. In every
case the ticker is created exactly when the period is positive, and
`time.NewTicker` panics exactly when it is not. -/
theorem initHealthCheck_tick_period (e : Env) (st : Store) :
    (0 ≤ e.CheckDuration → e.CheckDuration ≤ maxCheckDuration →
      (initHealthCheck e st).loop = .running ∧
      (e.CheckDuration = 0 → (initHealthCheck e st).period = Second * 10) ∧
      (e.CheckDuration ≠ 0 → (initHealthCheck e st).period = Second * e.CheckDuration)) ∧
    (-maxCheckDuration ≤ e.CheckDuration → e.CheckDuration < 0 →
      (initHealthCheck e st).loop = .panicked ∧
      (initHealthCheck e st).period = Second * e.CheckDuration) ∧
    (maxCheckDuration < e.CheckDuration ∨ e.CheckDuration < -maxCheckDuration →
      (initHealthCheck e st).period ≠ Second * e.CheckDuration) ∧
    ((initHealthCheck e st).loop = .running ↔ 0 < (initHealthCheck e st).period) ∧
    ((initHealthCheck e st).loop = .panicked ↔ (initHealthCheck e st).period ≤ 0) := by
  obtain ⟨hper, hrun, hpan⟩ := initHealthCheck_loop_period e st
  rw [hper]
  refine ⟨fun h0 h1 => ?_, fun h0 h1 => ?_, fun h => tickPeriod_of_overflow e h, hrun, hpan⟩
  · obtain ⟨hp, hpos⟩ := tickPeriod_of_fits e h0 h1
    refine ⟨hrun.2 hpos, fun hz => ?_, fun hz => ?_⟩
    · rw [hp, if_pos hz]
    · rw [hp, if_neg hz]
  · obtain ⟨hp, hneg⟩ := tickPeriod_of_negative_fits e h0 h1
    exact ⟨hpan.2 hneg, hp⟩

/-- Witness of C11, amended: a configured value of 30 gives a ticker with a
period of 30 seconds. -/
theorem initHealthCheck_tick_period_witness :
    (0 : Int) ≤ (envWithDuration 30).CheckDuration ∧
    (envWithDuration 30).CheckDuration ≤ maxCheckDuration ∧
    (initHealthCheck (envWithDuration 30) Store.initial).loop = .running ∧
    (initHealthCheck (envWithDuration 30) Store.initial).period = Second * 30 :=
  ⟨by decide, by decide,
   ((initHealthCheck_tick_period (envWithDuration 30) Store.initial).1
      (by decide) (by decide)).1,
   ((initHealthCheck_tick_period (envWithDuration 30) Store.initial).1
      (by decide) (by decide)).2.2 (by decide)⟩

theorem select_not_running (s : Scheduler) (ev : Event) (h : s.loop ≠ .running) :
    s.select ev = s := by
  unfold Scheduler.select
  cases hl : s.loop <;> simp_all

theorem foldl_select_not_running (evs : List Event) (s : Scheduler) (h : s.loop ≠ .running) :
    evs.foldl Scheduler.select s = s := by
  induction evs with
  | nil => rfl
  | cons ev rest ih => rw [List.foldl_cons, select_not_running s ev h, ih]

theorem select_stopped (s : Scheduler) (ev : Event) (h : (s.select ev).loop = .stopped)
    (hs : s.loop ≠ .stopped) : ev.isCancel = true := by
  by_cases hr : s.loop = .running
  · cases ev with
    | cancel => rfl
    | tick e sched =>
      simp only [Scheduler.select, hr] at h
      split at h <;> cases h
  · rw [select_not_running s ev hr] at h
    exact absurd h hs

theorem foldl_select_stopped (evs : List Event) (s : Scheduler)
    (h : (evs.foldl Scheduler.select s).loop = .stopped) (hs : s.loop ≠ .stopped) :
    evs.any Event.isCancel = true := by
  induction evs generalizing s with
  | nil => exact absurd h hs
  | cons ev rest ih =>
    rw [List.any_cons]
    by_cases hc : (s.select ev).loop = .stopped
    · rw [select_stopped s ev hc hs]; rfl
    · rw [ih (s.select ev) h hc]; simp

theorem initHealthCheck_not_stopped (e : Env) (st : Store) :
    (initHealthCheck e st).loop ≠ .stopped ∧ (initHealthCheck e st).tickerStopped = false := by
  unfold initHealthCheck
  split <;> exact ⟨by simp, rfl⟩

/-- C13: when the running loop takes the cancellation case, the ticker is
stopped and the loop has ended: whatever rounds are offered afterwards, no
further pass is made and the store stays as it was. The loop is never found
ended unless one of its rounds was the cancellation. -/
theorem initHealthCheck_cancel_is_final (e : Env) (st : Store) (before later : List Event)
    (hrun : (runScheduler e st before).loop = .running) :
    (runScheduler e st (before ++ [Event.cancel] ++ later)).loop = .stopped ∧
    (runScheduler e st (before ++ [Event.cancel] ++ later)).tickerStopped = true ∧
    (runScheduler e st (before ++ [Event.cancel] ++ later)).passes
      = (runScheduler e st before).passes ∧
    (runScheduler e st (before ++ [Event.cancel] ++ later)).store
      = (runScheduler e st before).store ∧
    (∀ evs : List Event, (runScheduler e st evs).loop = .stopped →
      evs.any Event.isCancel = true) := by
  have hc : (runScheduler e st (before ++ [Event.cancel] ++ later))
      = { runScheduler e st before with loop := .stopped, tickerStopped := true } := by
    simp only [runScheduler, List.foldl_append, List.foldl_cons, List.foldl_nil] at hrun ⊢
    have h1 : (List.foldl Scheduler.select (initHealthCheck e st) before).select Event.cancel
        = { List.foldl Scheduler.select (initHealthCheck e st) before with
            loop := .stopped, tickerStopped := true } := by
      simp [Scheduler.select, hrun]
    rw [h1]
    exact foldl_select_not_running later _ (by simp)
  rw [hc]
  refine ⟨rfl, rfl, rfl, rfl, fun evs h => ?_⟩
  exact foldl_select_stopped evs _ h (initHealthCheck_not_stopped e st).1

/-- Witness of C13: a tick, the cancellation, then two more ticks: one pass. -/
theorem initHealthCheck_cancel_is_final_witness :
    (runScheduler quietEnv Store.initial
      [.tick quietEnv (sequentialSchedule quietEnv)]).loop = .running ∧
    (runScheduler quietEnv Store.initial
      ([.tick quietEnv (sequentialSchedule quietEnv)] ++ [Event.cancel]
        ++ [.tick quietEnv (sequentialSchedule quietEnv),
            .tick failingEnv (sequentialSchedule failingEnv)])).passes
      = (runScheduler quietEnv Store.initial
          [.tick quietEnv (sequentialSchedule quietEnv)]).passes :=
  ⟨by decide,
   (initHealthCheck_cancel_is_final quietEnv Store.initial
      [.tick quietEnv (sequentialSchedule quietEnv)]
      [.tick quietEnv (sequentialSchedule quietEnv),
       .tick failingEnv (sequentialSchedule failingEnv)] (by decide)).2.2.1⟩

/-! ## When a probe reads the clock -/

theorem probeTime_init (e : Env) (clock : Nat) (item : HealthCheckItem) (i : Instants)
    (hT : item.Time = e.now clock) :
    ProbeTime e .call item none (clock + 1) (i.record .init clock) := by
  unfold ProbeTime
  refine ⟨fun _ => ⟨clock, rfl, Nat.lt_succ_self _, hT⟩, ?_, ?_⟩
  · intro hc; cases hc
  · intro v hv; cases hv

theorem probeTime_call {e : Env} {clock : Nat} {item item' : HealthCheckItem} {i : Instants}
    (h : ProbeTime e .call item none clock i) (hT : item'.Time = item.Time) :
    ProbeTime e .write item' none (clock + 1) (i.record .call clock) := by
  unfold ProbeTime at h ⊢
  obtain ⟨ti, h1, h2, h3⟩ := h.1 rfl
  refine ⟨?_, fun _ => ⟨ti, clock, h1, rfl, h2, hT.trans h3⟩, ?_⟩
  · intro hc; cases hc
  · intro v hv; cases hv

theorem probeTime_write {e : Env} {clock : Nat} {item item' v : HealthCheckItem}
    {entry : Option HealthCheckItem} {i : Instants}
    (h : ProbeTime e .write item entry clock i) (hT : v.Time = item.Time) :
    ProbeTime e .done item' (some v) (clock + 1) (i.record .write clock) := by
  unfold ProbeTime at h ⊢
  obtain ⟨ti, tc, h1, h2, h3, h4⟩ := h.2.1 rfl
  refine ⟨?_, ?_, fun w hw => ?_⟩
  · intro hc; cases hc
  · intro hc; cases hc
  · cases hw
    exact ⟨ti, tc, h1, h2, h3, hT.trans h4⟩

theorem probeTime_rest {e : Env} {pc pc' : ProbePC} {clock clock' : Nat}
    {item item' : HealthCheckItem} {entry : Option HealthCheckItem} {i : Instants}
    (h : ProbeTime e pc item entry clock i) (h1 : pc' ≠ .call) (h2 : pc' ≠ .write) :
    ProbeTime e pc' item' entry clock' i := by
  unfold ProbeTime at h ⊢
  exact ⟨fun hc => absurd hc h1, fun hc => absurd hc h2, h.2.2⟩

theorem probeTime_frame {e : Env} {pc : ProbePC} {clock clock' : Nat}
    {item : HealthCheckItem} {entry entry' : Option HealthCheckItem} {i : Instants}
    (h : ProbeTime e pc item entry clock i) (hc : clock ≤ clock')
    (he : ∀ v, entry' = some v → entry = some v) :
    ProbeTime e pc item entry' clock' i := by
  unfold ProbeTime at h ⊢
  refine ⟨fun hp => ?_, h.2.1, fun v hv => h.2.2 v (he v hv)⟩
  obtain ⟨ti, h1, h2, h3⟩ := h.1 hp
  exact ⟨ti, h1, by omega, h3⟩

theorem recordError_Time (item : HealthCheckItem) (err : Option String) :
    (recordError item err).Time = item.Time := by
  cases err <;> rfl

theorem recordConnect_Time (item : HealthCheckItem) (connected : Bool) :
    (recordConnect item connected).Time = item.Time := by
  cases connected <;> rfl

theorem mapGet_none_of_not_isSome (m : Snapshot) (k : String)
    (h : ¬ (mapGet m k).isSome = true) : mapGet m k = none := by
  cases hm : mapGet m k with
  | none => rfl
  | some v => simp [hm] at h

theorem timeInv_enter (e : Env) (st : Store) : TimeInv e (PassState.enter st) {} := by
  constructor <;> unfold ProbeTime <;> refine ⟨?_, ?_, ?_⟩ <;>
    first
      | (intro v hv; simp [PassState.enter, mapGet] at hv)
      | (intro hc; cases hc)

theorem timeInv_step {e : Env} {s : PassState} {tr : Trace} (h : TimeInv e s tr)
    (hs : Inv e s) (t : Tid) : TimeInv e (step e s t) (stepTrace s t tr) := by
  obtain ⟨main, redis, dashboard, rpc, wg, allInfos, ri, di, pi, store, clock⟩ := s
  obtain ⟨tr1, tr2, tr3⟩ := tr
  obtain ⟨hr, hd, hp⟩ := h
  have h10 := hs.has_redis
  have h11 := hs.has_dash
  have h12 := hs.has_rpc
  simp only at hr hd hp h10 h11 h12
  have hne1 : ("redis" : String) ≠ "dashboard" := by decide
  have hne2 : ("redis" : String) ≠ "rpc" := by decide
  have hne3 : ("dashboard" : String) ≠ "redis" := by decide
  have hne4 : ("dashboard" : String) ≠ "rpc" := by decide
  have hne5 : ("rpc" : String) ≠ "redis" := by decide
  have hne6 : ("rpc" : String) ≠ "dashboard" := by decide
  cases t
  · cases main <;> simp only [HealthCheck.step, stepMain, stepTrace] <;> (try split) <;>
      constructor <;> simp only [] <;>
      first
        | exact probeTime_frame hr (Nat.le_succ _) (fun _ hv => hv)
        | exact probeTime_frame hd (Nat.le_succ _) (fun _ hv => hv)
        | exact probeTime_frame hp (Nat.le_succ _) (fun _ hv => hv)
        | exact probeTime_frame (probeTime_rest hr (by simp) (by simp)) (Nat.le_succ _)
            (fun _ hv => by cases hv)
        | exact probeTime_frame hd (Nat.le_succ _) (fun _ hv => by cases hv)
        | exact probeTime_frame hp (Nat.le_succ _) (fun _ hv => by cases hv)
        | exact probeTime_rest hd (by simp) (by simp)
        | exact probeTime_rest hp (by simp) (by simp)
  · cases redis <;>
      simp only [HealthCheck.step, stepRedis, stepTrace] <;>
      constructor <;>
      simp only [mapGet_mapSet_self, mapGet_mapSet_ne _ _ _ _ hne1,
        mapGet_mapSet_ne _ _ _ _ hne2] <;>
      first
        | exact probeTime_frame hr (Nat.le_succ _) (fun _ hv => hv)
        | exact probeTime_frame hd (Nat.le_succ _) (fun _ hv => hv)
        | exact probeTime_frame hp (Nat.le_succ _) (fun _ hv => hv)
        | exact probeTime_rest hr (by simp) (by simp)
        | exact probeTime_write hr rfl
        | (have hn := mapGet_none_of_not_isSome allInfos "redis"
            (fun hx => by simpa [ProbePC.wrote] using h10.1 hx)
           rw [hn] at hr ⊢
           first
             | exact probeTime_init e clock _ _ rfl
             | exact probeTime_call hr (recordError_Time _ _))
  · cases dashboard <;>
      simp only [HealthCheck.step, stepDashboard, stepTrace] <;>
      constructor <;>
      simp only [mapGet_mapSet_self, mapGet_mapSet_ne _ _ _ _ hne3,
        mapGet_mapSet_ne _ _ _ _ hne4] <;>
      first
        | exact probeTime_frame hr (Nat.le_succ _) (fun _ hv => hv)
        | exact probeTime_frame hd (Nat.le_succ _) (fun _ hv => hv)
        | exact probeTime_frame hp (Nat.le_succ _) (fun _ hv => hv)
        | exact probeTime_rest hd (by simp) (by simp)
        | exact probeTime_write hd rfl
        | (have hn := mapGet_none_of_not_isSome allInfos "dashboard"
            (fun hx => by simpa [ProbePC.wrote] using h11.1 hx)
           rw [hn] at hd ⊢
           first
             | exact probeTime_init e clock _ _ rfl
             | exact probeTime_call hd (recordError_Time _ _))
  · cases rpc <;>
      simp only [HealthCheck.step, stepRpc, stepTrace] <;>
      constructor <;>
      simp only [mapGet_mapSet_self, mapGet_mapSet_ne _ _ _ _ hne5,
        mapGet_mapSet_ne _ _ _ _ hne6] <;>
      first
        | exact probeTime_frame hr (Nat.le_succ _) (fun _ hv => hv)
        | exact probeTime_frame hd (Nat.le_succ _) (fun _ hv => hv)
        | exact probeTime_frame hp (Nat.le_succ _) (fun _ hv => hv)
        | exact probeTime_rest hp (by simp) (by simp)
        | exact probeTime_write hp rfl
        | (have hn := mapGet_none_of_not_isSome allInfos "rpc"
            (fun hx => by simpa [ProbePC.wrote] using h12.1 hx)
           rw [hn] at hp ⊢
           first
             | exact probeTime_init e clock _ _ rfl
             | exact probeTime_call hp (recordConnect_Time _ _))

theorem timeInv_go (e : Env) (sched : List Tid) (s : PassState) (tr : Trace)
    (h : TimeInv e s tr) (hs : Inv e s) :
    TimeInv e (sched.foldl (step e) s) (instants.go e s tr sched) := by
  induction sched generalizing s tr with
  | nil => exact h
  | cons t rest ih => exact ih _ _ (timeInv_step h hs t) (inv_step hs t)

theorem timeInv_of_gatherHealthChecks (e : Env) (sched : List Tid) (st : Store) :
    TimeInv e (gatherHealthChecks e sched st) (instants e sched st) :=
  timeInv_go e sched _ _ (timeInv_enter e st) (inv_enter e st)

/-- C12, as stated, fails: in the sequential interleaving under a ticking
clock, the store probe builds its `checkItem` at instant 2 and makes its call
at instant 3; the `Time` of its entry is the reading of instant 2, which is not
the reading of the instant at which the call completed. -/
theorem gatherHealthChecks_time_read_before_call :
    (instants tickingEnv (sequentialSchedule tickingEnv) Store.initial).redis
      = { init := some 2, call := some 3 } ∧
    (mapGet (gatherHealthChecks tickingEnv (sequentialSchedule tickingEnv)
        Store.initial).allInfos "redis").map (fun v => v.Time)
      = some (tickingEnv.now 2) ∧
    tickingEnv.now 2 ≠ tickingEnv.now 3 := by
  decide

/-- C12, amended: in every interleaving, the `Time` of the entry of each probe
is the clock reading taken when the goroutine built its `checkItem`, at an
instant that lies before the instant of the probe's dependency call. -/
theorem gatherHealthChecks_time_is_read_first (e : Env) (sched : List Tid) (st : Store) :
    (∀ v, mapGet (gatherHealthChecks e sched st).allInfos "redis" = some v →
      ∃ ti tc, (instants e sched st).redis.init = some ti ∧
        (instants e sched st).redis.call = some tc ∧ ti < tc ∧ v.Time = e.now ti) ∧
    (∀ v, mapGet (gatherHealthChecks e sched st).allInfos "dashboard" = some v →
      ∃ ti tc, (instants e sched st).dashboard.init = some ti ∧
        (instants e sched st).dashboard.call = some tc ∧ ti < tc ∧ v.Time = e.now ti) ∧
    (∀ v, mapGet (gatherHealthChecks e sched st).allInfos "rpc" = some v →
      ∃ ti tc, (instants e sched st).rpc.init = some ti ∧
        (instants e sched st).rpc.call = some tc ∧ ti < tc ∧ v.Time = e.now ti) := by
  have h := timeInv_of_gatherHealthChecks e sched st
  exact ⟨h.redis.2.2, h.dashboard.2.2, h.rpc.2.2⟩

/-- Witness of C12, amended: the entry of the store probe in the sequential
interleaving under the ticking clock. -/
theorem gatherHealthChecks_time_is_read_first_witness :
    ∃ ti tc, (instants tickingEnv (sequentialSchedule tickingEnv) Store.initial).redis.init
        = some ti ∧
      (instants tickingEnv (sequentialSchedule tickingEnv) Store.initial).redis.call
        = some tc ∧ ti < tc ∧
      (newCheckItem "2020-01-01T00:00:02Z").Time = tickingEnv.now ti :=
  (gatherHealthChecks_time_is_read_first tickingEnv (sequentialSchedule tickingEnv)
    Store.initial).1 (newCheckItem "2020-01-01T00:00:02Z") (by decide)

/-! ## Component types -/

theorem publishedSnapshot_go_itemInv (e : Env) (sched : List Tid) (s : PassState)
    (snap : Snapshot) (hs : ItemInv e s) (h : publishedSnapshot.go e s sched = some snap) :
    ∃ s', ItemInv e s' ∧ s'.allInfos = snap := by
  induction sched generalizing s with
  | nil => simp [publishedSnapshot.go] at h
  | cons t rest ih =>
    unfold publishedSnapshot.go at h
    split at h
    · exact ⟨s, hs, by simpa using h⟩
    · exact ih _ (itemInv_step hs t) h

theorem recordError_ComponentType (item : HealthCheckItem) (err : Option String) :
    (recordError item err).ComponentType = item.ComponentType := by
  cases err <;> rfl

theorem componentType_of_itemInv {e : Env} {s : PassState} (h : ItemInv e s) :
    (∀ v, mapGet s.allInfos "redis" = some v → v.ComponentType = Datastore) ∧
    (∀ v, mapGet s.allInfos "dashboard" = some v → v.ComponentType = System) ∧
    (∀ v, mapGet s.allInfos "rpc" = some v → v.ComponentType = System) := by
  refine ⟨fun v hv => ?_, fun v hv => ?_, fun v hv => ?_⟩
  · obtain ⟨t, rfl⟩ := h.redis_entry v hv
    rw [recordError_ComponentType]
    rfl
  · obtain ⟨t, rfl⟩ := h.dash_entry v hv
    rfl
  · obtain ⟨t, rfl⟩ := h.rpc_entry v hv
    rfl

/-- C14: in every snapshot a pass publishes, and in the map of the pass at
every moment of every interleaving, the "redis" entry has component type
datastore and the "dashboard" and "rpc" entries, when present, have component
type system, whatever the dependencies answered. In the sequential
interleaving the pass publishes and every enabled probe has its entry. -/
theorem gatherHealthChecks_component_types (e : Env) (sched : List Tid) (st : Store) :
    (∀ snap, publishedSnapshot e sched st = some snap →
      (∀ v, mapGet snap "redis" = some v → v.ComponentType = "datastore") ∧
      (∀ v, mapGet snap "dashboard" = some v → v.ComponentType = "system") ∧
      (∀ v, mapGet snap "rpc" = some v → v.ComponentType = "system")) ∧
    ((∀ v, mapGet (gatherHealthChecks e sched st).allInfos "redis" = some v →
        v.ComponentType = "datastore") ∧
      (∀ v, mapGet (gatherHealthChecks e sched st).allInfos "dashboard" = some v →
        v.ComponentType = "system") ∧
      (∀ v, mapGet (gatherHealthChecks e sched st).allInfos "rpc" = some v →
        v.ComponentType = "system")) ∧
    ((gatherHealthChecks e (sequentialSchedule e) st).published = true ∧
      (mapGet (gatherHealthChecks e (sequentialSchedule e) st).allInfos "redis").isSome = true ∧
      (e.UseDBAppConfigs = true →
        (mapGet (gatherHealthChecks e (sequentialSchedule e) st).allInfos "dashboard").isSome
          = true) ∧
      (e.PolicySource = "rpc" →
        (mapGet (gatherHealthChecks e (sequentialSchedule e) st).allInfos "rpc").isSome
          = true)) := by
  refine ⟨fun snap h => ?_, ?_, sequentialSchedule_complete e st⟩
  · obtain ⟨s', hs', rfl⟩ := publishedSnapshot_go_itemInv e sched _ snap (itemInv_enter e st) h
    exact componentType_of_itemInv hs'
  · exact componentType_of_itemInv (itemInv_of_gatherHealthChecks e sched st)

/-- Witness of C14: with the store unreachable, the "redis" entry of the
sequential interleaving is of type datastore. -/
theorem gatherHealthChecks_component_types_witness :
    (recordError (newCheckItem "2020-01-01T00:00:00Z") (some "connection refused")).ComponentType
      = "datastore" :=
  (gatherHealthChecks_component_types failingEnv (sequentialSchedule failingEnv)
    Store.initial).2.1.1 _ (by decide)

/-! ## The JSON body -/

theorem member_eq_none (obj : List (String × JsonValue)) (name : String)
    (h : member obj name = none) : ∀ kv ∈ obj, kv.1 ≠ name := by
  induction obj with
  | nil => intro kv hkv; cases hkv
  | cons p rest ih =>
    obtain ⟨k, v⟩ := p
    by_cases hk : k = name
    · simp [member, hk] at h
    · simp only [member, hk, if_false] at h
      intro kv hkv
      rcases List.mem_cons.1 hkv with rfl | hmem
      · exact hk
      · exact ih h kv hmem

/-- C15: for a GET on the empty stored snapshot, the JSON object written has no
member "details" (no member of that name is written, with any value), its
"status" is "pass" and its "description" is "Tyk GW", whatever the version. -/
theorem liveCheckHandler_empty_omits_details (VERSION : String) (r : Request)
    (hget : r.Method = MethodGet) :
    ∃ obj, jsonBody (liveCheckHandler VERSION r { healthCheckInfo := some [] }).1 = some obj ∧
      member obj "details" = none ∧
      (∀ kv ∈ obj, kv.1 ≠ "details") ∧
      member obj "status" = some (JsonValue.str "pass") ∧
      member obj "description" = some (JsonValue.str "Tyk GW") := by
  rw [liveCheckHandler_get VERSION r [] hget]
  refine ⟨_, rfl, ?_, ?_, ?_, ?_⟩
  · by_cases hv : VERSION.length = 0 <;>
      simp [encodeResponse, omitEmpty, member, hv, aggregateStatus, failCount]
  · apply member_eq_none
    by_cases hv : VERSION.length = 0 <;>
      simp [encodeResponse, omitEmpty, member, hv, aggregateStatus, failCount]
  · by_cases hv : VERSION.length = 0 <;>
      simp [encodeResponse, omitEmpty, member, hv, aggregateStatus, failCount, Pass]
  · by_cases hv : VERSION.length = 0 <;>
      simp [encodeResponse, omitEmpty, member, hv]

/-- Witness of C15: the body of a GET before any pass has published. -/
theorem liveCheckHandler_empty_omits_details_witness :
    (Request.mk "GET").Method = MethodGet ∧
    ∃ obj, jsonBody (liveCheckHandler "v1" (Request.mk "GET")
        { healthCheckInfo := some [] }).1 = some obj ∧
      member obj "details" = none ∧
      (∀ kv ∈ obj, kv.1 ≠ "details") ∧
      member obj "status" = some (JsonValue.str "pass") ∧
      member obj "description" = some (JsonValue.str "Tyk GW") :=
  ⟨by decide, liveCheckHandler_empty_omits_details "v1" (Request.mk "GET") (by decide)⟩

/-! ## What the store can hold -/

theorem mem_mapSet (m : Snapshot) (k : String) (v : HealthCheckItem)
    (kv : String × HealthCheckItem) (h : kv ∈ mapSet m k v) : kv = (k, v) ∨ kv ∈ m := by
  induction m with
  | nil => simpa [mapSet] using h
  | cons p rest ih =>
    obtain ⟨k', v'⟩ := p
    by_cases hk : k' = k
    · simp only [mapSet, hk, if_true, List.mem_cons] at h ⊢
      rcases h with h | h
      · exact Or.inl h
      · exact Or.inr (Or.inr h)
    · simp only [mapSet, hk, if_false, List.mem_cons] at h ⊢
      rcases h with h | h
      · exact Or.inr (Or.inl h)
      · rcases ih h with h' | h'
        · exact Or.inl h'
        · exact Or.inr (Or.inr h')

theorem keys_mapSet (m : Snapshot) (k : String) (v : HealthCheckItem) :
    (mapSet m k v).map Prod.fst
      = if k ∈ m.map Prod.fst then m.map Prod.fst else m.map Prod.fst ++ [k] := by
  induction m with
  | nil => simp [mapSet]
  | cons p rest ih =>
    obtain ⟨k', v'⟩ := p
    by_cases hk : k' = k
    · simp [mapSet, hk]
    · have hk' : ¬ k = k' := fun h => hk h.symm
      simp only [mapSet, hk, if_false, List.map_cons, ih, List.mem_cons, hk', false_or]
      split <;> simp

theorem nodup_keys_mapSet (m : Snapshot) (k : String) (v : HealthCheckItem)
    (h : (m.map Prod.fst).Nodup) : ((mapSet m k v).map Prod.fst).Nodup := by
  rw [keys_mapSet]
  split
  · exact h
  · rename_i hk
    rw [List.nodup_append]
    refine ⟨h, List.nodup_singleton k, ?_⟩
    intro a ha hb
    rw [List.mem_singleton] at hb
    exact hk (hb ▸ ha)

theorem goodSnapshot_nil : GoodSnapshot [] :=
  ⟨List.nodup_nil, fun _ h => nomatch h⟩

theorem goodSnapshot_mapSet (m : Snapshot) (k : String) (v : HealthCheckItem)
    (h : GoodSnapshot m) (hkv : GoodEntry (k, v)) : GoodSnapshot (mapSet m k v) := by
  refine ⟨nodup_keys_mapSet m k v h.1, fun kv hmem => ?_⟩
  rcases mem_mapSet m k v kv hmem with rfl | h'
  · exact hkv
  · exact h.2 kv h'

theorem recordError_status (time : String) (err : Option String) :
    (recordError (newCheckItem time) err).Status = Pass ∨
    (recordError (newCheckItem time) err).Status = Fail := by
  cases err
  · exact Or.inl rfl
  · exact Or.inr rfl

theorem recordConnect_status (time : String) (connected : Bool) :
    (recordConnect (newCheckItem time) connected).Status = Pass ∨
    (recordConnect (newCheckItem time) connected).Status = Fail := by
  cases connected
  · exact Or.inr rfl
  · exact Or.inl rfl

theorem goodSnapshot_step {e : Env} {s : PassState} (h : GoodSnapshot s.allInfos)
    (hi : ItemInv e s) (t : Tid) : GoodSnapshot (step e s t).allInfos := by
  obtain ⟨main, redis, dashboard, rpc, wg, allInfos, ri, di, pi, store, clock⟩ := s
  have h2 := hi.redis_write
  have h5 := hi.dash_write
  have h8 := hi.rpc_write
  simp only at h h2 h5 h8
  cases t
  · cases main <;> simp only [HealthCheck.step, stepMain] <;> (try split) <;>
      first
        | exact h
        | exact goodSnapshot_nil
  · cases redis <;> simp only [HealthCheck.step, stepRedis] <;>
      first
        | exact h
        | (obtain ⟨t, ht⟩ := h2 rfl
           exact goodSnapshot_mapSet _ _ _ h ⟨Or.inl rfl, ht ▸ recordError_status _ _⟩)
  · cases dashboard <;> simp only [HealthCheck.step, stepDashboard] <;>
      first
        | exact h
        | (obtain ⟨t, ht⟩ := h5 rfl
           exact goodSnapshot_mapSet _ _ _ h
             ⟨Or.inr (Or.inl rfl), ht ▸ recordError_status _ _⟩)
  · cases rpc <;> simp only [HealthCheck.step, stepRpc] <;>
      first
        | exact h
        | (obtain ⟨t, ht⟩ := h8 rfl
           exact goodSnapshot_mapSet _ _ _ h
             ⟨Or.inr (Or.inr rfl), ht ▸ recordConnect_status _ _⟩)

theorem goodSnapshot_foldl_step {e : Env} (sched : List Tid) {s : PassState}
    (h : GoodSnapshot s.allInfos) (hi : ItemInv e s) :
    GoodSnapshot (sched.foldl (step e) s).allInfos := by
  induction sched generalizing s with
  | nil => exact h
  | cons t rest ih => exact ih (goodSnapshot_step h hi t) (itemInv_step hi t)

theorem goodSnapshot_of_gatherHealthChecks (e : Env) (sched : List Tid) (st : Store) :
    GoodSnapshot (gatherHealthChecks e sched st).allInfos :=
  goodSnapshot_foldl_step sched goodSnapshot_nil (itemInv_enter e st)

theorem mapGet_isSome_of_mem (m : Snapshot) (kv : String × HealthCheckItem) (h : kv ∈ m) :
    (mapGet m kv.1).isSome = true := by
  induction m with
  | nil => cases h
  | cons p rest ih =>
    obtain ⟨k', v'⟩ := p
    by_cases hk : k' = kv.1
    · simp [mapGet, hk]
    · simp only [mapGet, hk, if_false]
      rcases List.mem_cons.1 h with h' | h'
      · exact absurd (by rw [h']) hk
      · exact ih h'

theorem eq_of_key_eq (m : Snapshot) (hn : (m.map Prod.fst).Nodup)
    (a b : String × HealthCheckItem) (ha : a ∈ m) (hb : b ∈ m) (hk : a.1 = b.1) : a = b := by
  induction m with
  | nil => cases ha
  | cons p rest ih =>
    rw [List.map_cons, List.nodup_cons] at hn
    rcases List.mem_cons.1 ha with ha | ha <;> rcases List.mem_cons.1 hb with hb | hb
    · rw [ha, hb]
    · exact absurd (List.mem_map_of_mem Prod.fst hb) (by rw [← hk, ha]; exact hn.1)
    · exact absurd (List.mem_map_of_mem Prod.fst ha) (by rw [hk, hb]; exact hn.1)
    · exact ih hn.2 ha hb

theorem warn_disagree (m : Snapshot) (h : aggregateStatus m = Warn) :
    (∃ a ∈ m, a.2.Status = Fail) ∧ (∃ b ∈ m, b.2.Status ≠ Fail) := by
  have hpw : Pass ≠ Warn := by decide
  have hfw : Fail ≠ Warn := by decide
  unfold aggregateStatus at h
  rw [failCount_eq_numFail] at h
  by_cases h0 : numFail m = 0
  · rw [if_pos h0] at h
    exact absurd h hpw
  · rw [if_neg h0] at h
    by_cases h1 : numFail m = m.length
    · rw [if_pos h1] at h
      exact absurd h hfw
    · constructor
      · have hne : m.filter (fun kv => decide (kv.2.Status = Fail)) ≠ [] := by
          intro hnil
          exact h0 (by simp [numFail, hnil])
        obtain ⟨a, ha⟩ := List.exists_mem_of_ne_nil _ hne
        rw [List.mem_filter] at ha
        exact ⟨a, ha.1, by simpa using ha.2⟩
      · by_contra hall
        push_neg at hall
        apply h1
        unfold numFail
        rw [List.filter_eq_self.2 (fun a ha => by simpa using hall a ha)]

theorem enabled_of_mem (e : Env) (sched : List Tid) (st : Store)
    (kv : String × HealthCheckItem) (h : kv ∈ (gatherHealthChecks e sched st).allInfos) :
    (kv.1 = "dashboard" → e.UseDBAppConfigs = true) ∧
    (kv.1 = "rpc" → e.PolicySource = "rpc") := by
  have hs := inv_of_gatherHealthChecks e sched st
  have hsome := mapGet_isSome_of_mem _ kv h
  constructor
  · intro hk
    rw [hk] at hsome
    have hw := hs.has_dash.1 hsome
    exact (hs.dash_started (by rcases hw with h | h <;> simp [h])).1
  · intro hk
    rw [hk] at hsome
    have hw := hs.has_rpc.1 hsome
    exact (hs.rpc_started (by rcases hw with h | h <;> simp [h])).1

theorem step_store (e : Env) (s : PassState) (t : Tid) : (step e s t).store = s.store := by
  cases t
  · simp only [step, stepMain]
    split <;> (try split) <;> rfl
  · simp only [step, stepRedis]
    split <;> rfl
  · simp only [step, stepDashboard]
    split <;> rfl
  · simp only [step, stepRpc]
    split <;> rfl

theorem gatherHealthChecks_store (e : Env) (sched : List Tid) (st : Store) :
    (gatherHealthChecks e sched st).store = st := by
  have key : ∀ s : PassState, (sched.foldl (step e) s).store = s.store := by
    induction sched with
    | nil => intro s; rfl
    | cons t rest ih => intro s; rw [List.foldl_cons, ih, step_store]
  exact key _

theorem fromPass_mono (evs : List Event) (ev : Event) (m : Snapshot) (h : FromPass evs m) :
    FromPass (evs ++ [ev]) m := by
  rcases h with h | ⟨e, sched, st, hmem, hm⟩
  · exact Or.inl h
  · exact Or.inr ⟨e, sched, st, List.mem_append_left _ hmem, hm⟩

theorem runScheduler_snoc (e : Env) (st : Store) (evs : List Event) (ev : Event) :
    runScheduler e st (evs ++ [ev]) = (runScheduler e st evs).select ev := by
  simp [runScheduler, List.foldl_append]

theorem runScheduler_store (e : Env) (st : Store) (evs : List Event) :
    ∃ m, (runScheduler e st evs).store.healthCheckInfo = some m ∧ GoodSnapshot m ∧
      FromPass evs m := by
  induction evs using List.reverseRecOn with
  | nil => exact ⟨[], by rw [runScheduler, List.foldl_nil, (initHealthCheck_passes e st).2],
      goodSnapshot_nil, Or.inl rfl⟩
  | append_singleton evs ev ih =>
    obtain ⟨m, hm, hg, hf⟩ := ih
    rw [runScheduler_snoc]
    by_cases hr : (runScheduler e st evs).loop = .running
    · cases ev with
      | cancel =>
        refine ⟨m, ?_, hg, fromPass_mono evs _ m hf⟩
        simpa [Scheduler.select, hr] using hm
      | tick e' sched =>
        by_cases hp : (gatherHealthChecks e' sched (runScheduler e st evs).store).published
            = true
        · refine ⟨(gatherHealthChecks e' sched (runScheduler e st evs).store).allInfos, ?_,
            goodSnapshot_of_gatherHealthChecks _ _ _,
            Or.inr ⟨e', sched, _, List.mem_append_right _ (List.mem_singleton_self _), rfl⟩⟩
          simp [Scheduler.select, hr, PassState.healthCheckInfo, hp, setCurrentHealthCheckInfo]
        · refine ⟨m, ?_, hg, fromPass_mono evs _ m hf⟩
          have hst := gatherHealthChecks_store e' sched (runScheduler e st evs).store
          simp [Scheduler.select, hr, PassState.healthCheckInfo, hp, hst, hm]
    · rw [select_not_running _ _ hr]
      exact ⟨m, hm, hg, fromPass_mono evs _ m hf⟩

/-- C17: whatever rounds the scheduler of `initHealthCheck` has taken, the store
holds a snapshot, every entry of it has one of the keys "redis", "dashboard",
"rpc" and status pass or fail, never warn; and when `liveCheckHandler` reports
warn on it, the snapshot is the map of a pass, started by one of the ticks,
in which the control-plane probe or the RPC probe was enabled beside the store
probe, and it holds two entries under different keys, one with status fail and
one with status pass. -/
theorem store_entries_come_from_probes (e : Env) (st : Store) (evs : List Event) :
    ∃ m, (runScheduler e st evs).store.healthCheckInfo = some m ∧
      (∀ kv ∈ m, (kv.1 = "redis" ∨ kv.1 = "dashboard" ∨ kv.1 = "rpc") ∧
        (kv.2.Status = "pass" ∨ kv.2.Status = "fail") ∧ kv.2.Status ≠ "warn") ∧
      (∀ (VERSION : String) (r : Request),
        reportedStatus (liveCheckHandler VERSION r (runScheduler e st evs).store).1
          = some Warn →
        (∃ e' sched, Event.tick e' sched ∈ evs ∧
          (e'.UseDBAppConfigs = true ∨ e'.PolicySource = "rpc")) ∧
        (∃ a ∈ m, ∃ b ∈ m, a.1 ≠ b.1 ∧ a.2.Status = Fail ∧ b.2.Status = Pass)) := by
  obtain ⟨m, hm, hg, hf⟩ := runScheduler_store e st evs
  have hpw : Pass ≠ Warn := by decide
  have hfw : Fail ≠ Warn := by decide
  have hpf : Pass ≠ Fail := by decide
  refine ⟨m, hm, fun kv hkv => ?_, fun VERSION r hw => ?_⟩
  · obtain ⟨hk, hs⟩ := hg.2 kv hkv
    refine ⟨hk, hs, ?_⟩
    rcases hs with h | h <;> rw [h]
    · exact hpw
    · exact hfw
  · have hstore : (runScheduler e st evs).store = { healthCheckInfo := some m } := by
      cases hs : (runScheduler e st evs).store
      rw [hs] at hm
      simp only at hm
      rw [hm]
    rw [hstore] at hw
    have hagg : aggregateStatus m = Warn := by
      by_cases hget : r.Method = MethodGet
      · rw [liveCheckHandler_get VERSION r m hget] at hw
        simpa [reportedStatus] using hw
      · simp [liveCheckHandler, hget, reportedStatus, doJSONWrite, apiError] at hw
    obtain ⟨⟨a, ha, haf⟩, ⟨b, hb, hbf⟩⟩ := warn_disagree m hagg
    have hbp : b.2.Status = Pass := by
      rcases (hg.2 b hb).2 with h | h
      · exact h
      · exact absurd h hbf
    have hne : a.1 ≠ b.1 := by
      intro hk
      have hab := eq_of_key_eq m hg.1 a b ha hb hk
      rw [hab] at haf
      exact hbf haf
    refine ⟨?_, a, ha, b, hb, hne, haf, hbp⟩
    rcases hf with hnil | ⟨e', sched, st', hmem, hm'⟩
    · rw [hnil] at ha
      cases ha
    · refine ⟨e', sched, hmem, ?_⟩
      rw [hm'] at ha hb
      obtain ⟨ha1, ha2⟩ := enabled_of_mem e' sched st' a ha
      obtain ⟨hb1, hb2⟩ := enabled_of_mem e' sched st' b hb
      rcases (hg.2 a (hm' ▸ ha)).1 with h | h | h
      · rcases (hg.2 b (hm' ▸ hb)).1 with h' | h' | h'
        · exact absurd (h.trans h'.symm) hne
        · exact Or.inl (hb1 h')
        · exact Or.inr (hb2 h')
      · exact Or.inl (ha1 h)
      · exact Or.inr (ha2 h)

/-- Witness of C17: after one pass in which the store and the RPC endpoint
cannot be reached and the control plane answers, a GET reports warn. -/
theorem store_entries_come_from_probes_witness :
    reportedStatus (liveCheckHandler "v1" (Request.mk "GET")
      (runScheduler quietEnv Store.initial
        [.tick failingEnv (sequentialSchedule failingEnv)]).store).1 = some Warn ∧
    ∃ m, (runScheduler quietEnv Store.initial
        [.tick failingEnv (sequentialSchedule failingEnv)]).store.healthCheckInfo = some m ∧
      (∀ kv ∈ m, (kv.1 = "redis" ∨ kv.1 = "dashboard" ∨ kv.1 = "rpc") ∧
        (kv.2.Status = "pass" ∨ kv.2.Status = "fail") ∧ kv.2.Status ≠ "warn") :=
  ⟨by decide,
   (store_entries_come_from_probes quietEnv Store.initial
      [.tick failingEnv (sequentialSchedule failingEnv)]).imp
     (fun _ h => ⟨h.1, h.2.1⟩)⟩

end HealthCheck

/-! # The embedded schema assets -/

namespace Schema

theorem tableGet_bindata (name : String) :
    tableGet _bindata name =
      if "3.0.3.json" = name then some _303Json
      else if "x-tyk-api-gateway.json" = name then some xTykApiGatewayJson
      else none := by
  simp only [_bindata, tableGet]

theorem bindataRead_error (run : GzipRun) (name : String) :
    ((bindataRead run name).2.isSome = true
      ↔ (run.newReader.isSome = true ∨ run.copy.isSome = true)) ∧
    ((bindataRead run name).2.isSome = true → (bindataRead run name).1 = none) ∧
    (run.newReader = none → run.copy = none → run.close = none →
      bindataRead run name = (some run.copied, none)) := by
  unfold bindataRead
  cases h1 : run.newReader <;> cases h2 : run.copy <;> cases h3 : run.close <;> simp

theorem _303Json_error (b : Blobs) :
    ((_303Json b).2.isSome = true ↔ (_303JsonBytes b).2.isSome = true) ∧
    ((_303Json b).2 = none →
      ∃ a, (_303Json b).1 = some a ∧ a.bytes = (_303JsonBytes b).1) := by
  unfold _303Json
  rcases h : _303JsonBytes b with ⟨bytes, _ | err⟩ <;> simp

theorem xTykApiGatewayJson_error (b : Blobs) :
    ((xTykApiGatewayJson b).2.isSome = true ↔ (xTykApiGatewayJsonBytes b).2.isSome = true) ∧
    ((xTykApiGatewayJson b).2 = none →
      ∃ a, (xTykApiGatewayJson b).1 = some a ∧ a.bytes = (xTykApiGatewayJsonBytes b).1) := by
  unfold xTykApiGatewayJson
  rcases h : xTykApiGatewayJsonBytes b with ⟨bytes, _ | err⟩ <;> simp

theorem Asset_of_generator (b : Blobs) (name : String)
    (f : Blobs → Option asset × Option String)
    (hf : tableGet _bindata (cannonicalName name) = some f)
    (hgen : (f b).2 = none → ∃ a, (f b).1 = some a) :
    ((Asset b name).2.isSome = true ↔ (f b).2.isSome = true) ∧
    ((Asset b name).2.isSome = true → (Asset b name).1 = none) ∧
    (∀ a, f b = (some a, none) → Asset b name = (a.bytes, none)) := by
  unfold Asset
  rw [hf]
  rcases h : f b with ⟨_ | a, _ | err⟩
  · rw [h] at hgen
    obtain ⟨a, ha⟩ := hgen rfl
    cases ha
  · simp [h]
  · simp [h]
  · simp [h]

/-- C16: `Asset(name)` returns no bytes and the error "Asset <name> not found"
for every name that, with each backslash replaced by a slash, is neither
"3.0.3.json" nor "x-tyk-api-gateway.json"; for a name of the table it runs the
generator of that asset, returns an error (and no bytes) exactly when the
generator does, which is when `gzip` fails to open or to copy the blob, and
returns the bytes read when `gzip` reads the blob without error. -/
theorem Asset_found_iff_in_table (b : Blobs) (name : String) :
    (cannonicalName name ≠ "3.0.3.json" → cannonicalName name ≠ "x-tyk-api-gateway.json" →
      Asset b name = (none, some ("Asset " ++ name ++ " not found"))) ∧
    (cannonicalName name = "3.0.3.json" →
      ((Asset b name).2.isSome = true ↔ (_303Json b).2.isSome = true) ∧
      ((Asset b name).2.isSome = true
        ↔ (b.json303.newReader.isSome = true ∨ b.json303.copy.isSome = true)) ∧
      ((Asset b name).2.isSome = true → (Asset b name).1 = none) ∧
      (b.json303.newReader = none → b.json303.copy = none → b.json303.close = none →
        Asset b name = (some b.json303.copied, none))) ∧
    (cannonicalName name = "x-tyk-api-gateway.json" →
      ((Asset b name).2.isSome = true ↔ (xTykApiGatewayJson b).2.isSome = true) ∧
      ((Asset b name).2.isSome = true
        ↔ (b.xTykApiGateway.newReader.isSome = true ∨ b.xTykApiGateway.copy.isSome = true)) ∧
      ((Asset b name).2.isSome = true → (Asset b name).1 = none) ∧
      (b.xTykApiGateway.newReader = none → b.xTykApiGateway.copy = none →
        b.xTykApiGateway.close = none →
        Asset b name = (some b.xTykApiGateway.copied, none))) := by
  refine ⟨fun h1 h2 => ?_, fun h => ?_, fun h => ?_⟩
  · have ht : tableGet _bindata (cannonicalName name) = none := by
      rw [tableGet_bindata, if_neg (fun hx => h1 hx.symm), if_neg (fun hx => h2 hx.symm)]
    simp only [Asset, ht]
  · have ht : tableGet _bindata (cannonicalName name) = some _303Json := by
      rw [tableGet_bindata, if_pos h.symm]
    obtain ⟨g1, g2⟩ := _303Json_error b
    obtain ⟨r1, r2, r3⟩ := bindataRead_error b.json303 "3.0.3.json"
    obtain ⟨a1, a2, a3⟩ := Asset_of_generator b name _303Json ht
      (fun hn => by obtain ⟨a, ha, -⟩ := g2 hn; exact ⟨a, ha⟩)
    refine ⟨a1, a1.trans (g1.trans r1), a2, fun n1 n2 n3 => ?_⟩
    have hb : _303JsonBytes b = (some b.json303.copied, none) := r3 n1 n2 n3
    exact a3 { bytes := some b.json303.copied, info := { name := "3.0.3.json" } }
      (by simp [_303Json, hb])
  · have hne : ¬ ("3.0.3.json" = cannonicalName name) := by
      rw [h]; decide
    have ht : tableGet _bindata (cannonicalName name) = some xTykApiGatewayJson := by
      rw [tableGet_bindata, if_neg hne, if_pos h.symm]
    obtain ⟨g1, g2⟩ := xTykApiGatewayJson_error b
    obtain ⟨r1, r2, r3⟩ := bindataRead_error b.xTykApiGateway "x-tyk-api-gateway.json"
    obtain ⟨a1, a2, a3⟩ := Asset_of_generator b name xTykApiGatewayJson ht
      (fun hn => by obtain ⟨a, ha, -⟩ := g2 hn; exact ⟨a, ha⟩)
    refine ⟨a1, a1.trans (g1.trans r1), a2, fun n1 n2 n3 => ?_⟩
    have hb : xTykApiGatewayJsonBytes b = (some b.xTykApiGateway.copied, none) :=
      r3 n1 n2 n3
    exact a3 { bytes := some b.xTykApiGateway.copied,
               info := { name := "x-tyk-api-gateway.json" } }
      (by simp [xTykApiGatewayJson, hb])

/-- Witness of C16: a name outside the table, written with a backslash. -/
theorem Asset_found_iff_in_table_witness :
    cannonicalName (String.mk [Char.ofNat 92, 'a']) = "/a" ∧
    Asset goodBlobs (String.mk [Char.ofNat 92, 'a'])
      = (none, some ("Asset " ++ String.mk [Char.ofNat 92, 'a'] ++ " not found")) :=
  ⟨by decide,
   (Asset_found_iff_in_table goodBlobs (String.mk [Char.ofNat 92, 'a'])).1
     (by decide) (by decide)⟩

end Schema
